import Mathlib

/-!
Verification of the starcraft-voice-bot repository (src/audio_manager.py,
src/bot.py, src/config.py) against its natural-language specification.

The Python code is shallowly embedded:
* Python `dict[str, str]` becomes an insertion-ordered association list
  `List (String × String)` with `dictInsert` / `dictLookup` mirroring
  Python's `d[k] = v` and `k in d` / `d[k]`.
* Filesystem walks are modelled as a list of files, each given by its
  directory segments and filename; `os.path.join`/`os.path.relpath` are
  modelled with POSIX forward-slash separators (the deployment platform).
* The rapidfuzz scorer (`fuzz.partial_ratio`) is an external library and is
  modelled as an abstract scorer parameter `String → String → ℚ`;
  `process.extract` ranks all candidates by score descending and keeps the
  top `limit`, which is modelled by a stable merge sort plus `take`.
* The Telegram transport is modelled as an oracle
  `String → Nat → Outcome` giving, for each identifier and attempt number,
  the outcome of `message.answer_voice`: success (a file_id), a
  `TelegramRetryAfter` with its cooldown, or a generic exception.
* The `cmd_upload` handler (after its admin gate) becomes a pure state
  function that also records a trace of its observable events (transport
  calls, sleeps, cache saves, progress and final messages).
-/

namespace StarcraftVoiceBot

/-! ## Python dict as an insertion-ordered association list -/

/-- Python `d[k] = v`: overwrite in place if the key exists, else append. -/
def dictInsert (k v : String) : List (String × String) → List (String × String)
  | [] => [(k, v)]
  | p :: rest => if p.1 = k then (k, v) :: rest else p :: dictInsert k v rest

/-- Python `d[k]` / `k in d`: first binding of the key, if any. -/
def dictLookup (k : String) (m : List (String × String)) : Option String :=
  (m.find? (fun p => p.1 == k)).map (fun p => p.2)

/-- The keys of a dict, in insertion order. -/
def dictKeys (m : List (String × String)) : List String :=
  m.map (fun p => p.1)

theorem dictLookup_nil (k : String) : dictLookup k [] = none := rfl

theorem dictKeys_nil : dictKeys [] = [] := rfl

theorem dictKeys_cons (p : String × String) (m : List (String × String)) :
    dictKeys (p :: m) = p.1 :: dictKeys m := rfl

theorem dictLookup_cons (k : String) (p : String × String) (m : List (String × String)) :
    dictLookup k (p :: m) = if p.1 = k then some p.2 else dictLookup k m := by
  by_cases h : p.1 = k
  · rw [if_pos h]
    unfold dictLookup
    rw [List.find?_cons_of_pos _ (by simpa using h)]
    rfl
  · rw [if_neg h]
    unfold dictLookup
    rw [List.find?_cons_of_neg _ (by simpa using h)]

theorem dictLookup_dictInsert_self (k v : String) (m : List (String × String)) :
    dictLookup k (dictInsert k v m) = some v := by
  induction m with
  | nil => simp [dictInsert, dictLookup_cons]
  | cons p rest ih =>
    by_cases h : p.1 = k
    · simp [dictInsert, h, dictLookup_cons]
    · simp [dictInsert, h, dictLookup_cons, ih]

theorem dictLookup_dictInsert_ne (k k' v : String) (m : List (String × String))
    (h : k' ≠ k) : dictLookup k (dictInsert k' v m) = dictLookup k m := by
  induction m with
  | nil => simp [dictInsert, dictLookup_cons, dictLookup_nil, h]
  | cons p rest ih =>
    by_cases hp : p.1 = k'
    · simp [dictInsert, hp, dictLookup_cons, h, ih]
    · simp only [dictInsert, hp, if_false, dictLookup_cons, ih]

theorem dictInsert_cons_of_eq (k' v : String) (p : String × String)
    (m : List (String × String)) (hp : p.1 = k') :
    dictInsert k' v (p :: m) = (k', v) :: m := by
  conv_lhs => unfold dictInsert
  rw [if_pos hp]

theorem dictInsert_cons_of_ne (k' v : String) (p : String × String)
    (m : List (String × String)) (hp : ¬p.1 = k') :
    dictInsert k' v (p :: m) = p :: dictInsert k' v m := by
  conv_lhs => unfold dictInsert
  rw [if_neg hp]

theorem mem_dictKeys_dictInsert (k k' v : String) (m : List (String × String)) :
    k ∈ dictKeys (dictInsert k' v m) ↔ k = k' ∨ k ∈ dictKeys m := by
  induction m with
  | nil => simp [dictInsert, dictKeys]
  | cons p rest ih =>
    by_cases hp : p.1 = k'
    · rw [dictInsert_cons_of_eq k' v p rest hp, dictKeys_cons, dictKeys_cons,
        List.mem_cons, List.mem_cons, hp]
      tauto
    · rw [dictInsert_cons_of_ne k' v p rest hp, dictKeys_cons, List.mem_cons, ih,
        dictKeys_cons, List.mem_cons]
      tauto

theorem nodup_dictKeys_dictInsert (k v : String) (m : List (String × String))
    (h : (dictKeys m).Nodup) : (dictKeys (dictInsert k v m)).Nodup := by
  induction m with
  | nil => simp [dictInsert, dictKeys]
  | cons p rest ih =>
    rw [dictKeys_cons, List.nodup_cons] at h
    by_cases hp : p.1 = k
    · rw [dictInsert_cons_of_eq k v p rest hp, dictKeys_cons, List.nodup_cons]
      exact ⟨hp ▸ h.1, h.2⟩
    · rw [dictInsert_cons_of_ne k v p rest hp, dictKeys_cons, List.nodup_cons]
      refine ⟨?_, ih h.2⟩
      intro hmem
      rw [mem_dictKeys_dictInsert] at hmem
      rcases hmem with h1 | h1
      · exact hp h1
      · exact h.1 h1

theorem dictInsert_of_not_mem (k v : String) (m : List (String × String))
    (h : k ∉ dictKeys m) : dictInsert k v m = m ++ [(k, v)] := by
  induction m with
  | nil => rfl
  | cons p rest ih =>
    rw [dictKeys_cons, List.mem_cons] at h
    push_neg at h
    rw [dictInsert_cons_of_ne k v p rest (fun he => h.1 he.symm), ih h.2,
      List.cons_append]

/-! ## String utilities mirroring the Python string operations used -/

/-- One character of Python `path.replace(chr(92), chr(47))`. -/
def normChar (c : Char) : Char := if c = '\\' then '/' else c

/-- Python `path.replace` of every backslash by a forward slash. -/
def normalizeKey (s : String) : String := String.mk (s.data.map normChar)

theorem normChar_normChar (c : Char) : normChar (normChar c) = normChar c := by
  unfold normChar
  by_cases h : c = '\\' <;> simp [h]

theorem normalizeKey_normalizeKey (s : String) :
    normalizeKey (normalizeKey s) = normalizeKey s := by
  apply String.ext
  show (s.data.map normChar).map normChar = s.data.map normChar
  rw [List.map_map]
  exact List.map_congr_left (fun c _ => normChar_normChar c)

theorem map_normChar_of_no_backslash (l : List Char) (h : '\\' ∉ l) :
    l.map normChar = l := by
  induction l with
  | nil => rfl
  | cons c rest ih =>
    rw [List.mem_cons] at h
    push_neg at h
    rw [List.map_cons, ih h.2]
    congr 1
    unfold normChar
    rw [if_neg (fun he => h.1 he.symm)]

/-- Python `s.split(chr(47))` on the character list of a string. -/
def splitChar (c : Char) : List Char → List (List Char)
  | [] => [[]]
  | x :: xs =>
    if x = c then [] :: splitChar c xs
    else
      match splitChar c xs with
      | [] => [[x]]
      | h :: t => (x :: h) :: t

theorem splitChar_ne_nil (c : Char) (l : List Char) : splitChar c l ≠ [] := by
  induction l with
  | nil => simp [splitChar]
  | cons x xs ih =>
    by_cases h : x = c
    · simp [splitChar, h]
    · simp only [splitChar, if_neg h]
      rcases he : splitChar c xs with - | ⟨hd, tl⟩
      · simp
      · simp

theorem splitChar_cons (c x : Char) (xs : List Char) :
    splitChar c (x :: xs) =
      if x = c then [] :: splitChar c xs
      else
        match splitChar c xs with
        | [] => [[x]]
        | h :: t => (x :: h) :: t := rfl

theorem splitChar_of_not_mem (c : Char) (l : List Char) (h : c ∉ l) :
    splitChar c l = [l] := by
  induction l with
  | nil => rfl
  | cons x xs ih =>
    rw [List.mem_cons] at h
    push_neg at h
    rw [splitChar_cons, if_neg (fun he => h.1 he.symm), ih h.2]

theorem splitChar_append_sep (c : Char) (l₁ l₂ : List Char) (h : c ∉ l₁) :
    splitChar c (l₁ ++ c :: l₂) = l₁ :: splitChar c l₂ := by
  induction l₁ with
  | nil =>
    rw [List.nil_append, splitChar_cons, if_pos rfl]
  | cons x xs ih =>
    rw [List.mem_cons] at h
    push_neg at h
    rw [List.cons_append, splitChar_cons, if_neg (fun he => h.1 he.symm), ih h.2]

/-- Python `chr(47).join(parts)`. -/
def joinSlash : List String → String
  | [] => ""
  | [s] => s
  | s :: rest => s ++ "/" ++ joinSlash rest

theorem joinSlash_cons_cons (s r : String) (t : List String) :
    joinSlash (s :: r :: t) = s ++ "/" ++ joinSlash (r :: t) := rfl

/-- Python `relative_path.replace(chr(92), chr(47)).split(chr(47))`:
the path segments of an identifier after backslash normalization. -/
def pathParts (s : String) : List String :=
  (splitChar '/' (s.data.map normChar)).map String.mk

/-- Python `s.rsplit(chr(46), 1)[0]`: strip the last extension. -/
def stem (s : String) : String :=
  if s.data.contains '.' then
    String.mk ((s.data.reverse.dropWhile (fun c => c != '.')).tail.reverse)
  else s

/-- One step of Python `str.title()`: the boolean says whether the previous
character was alphabetic (cased). -/
def titleAux : Bool → List Char → List Char
  | _, [] => []
  | prevAlpha, c :: rest =>
    if c.isAlpha then
      (if prevAlpha then c.toLower else c.toUpper) :: titleAux true rest
    else c :: titleAux false rest

/-- Python `str.title()` (ASCII-faithful). -/
def title (s : String) : String := String.mk (titleAux false s.data)

/-- An ASCII whitespace character, as stripped by Python `str.strip()`. -/
def isSpaceChar (c : Char) : Bool :=
  c == ' ' || c == '\t' || c == '\n' || c == '\r' || c == '\x0b' || c == '\x0c'

/-- Python `str.strip()` (ASCII-faithful): drop leading and trailing
whitespace. -/
def pyStrip (s : String) : String :=
  String.mk (((s.data.dropWhile isSpaceChar).reverse.dropWhile isSpaceChar).reverse)

/-! ## Handle Cache: `load_file_id_cache` / `save_file_id_cache` (src/bot.py
lines 30-55).  The persisted JSON file is modelled as the association list it
serializes: `json.dump`/`json.load` of a string-to-string dict round-trips
faithfully and preserves insertion order, and a missing file is `none`. -/

/-- The key-normalization fold shared by load and save: Python builds
`normalized_cache = {}` and assigns
`normalized_cache[path.replace(backslash, slash)] = file_id` for every item
of the input dict in order. -/
def normalizeCache (m : List (String × String)) : List (String × String) :=
  m.foldl (fun acc p => dictInsert (normalizeKey p.1) p.2 acc) []

/-- `save_file_id_cache(cache)`: normalize every key, then write the result
(the returned value is the stored file content). -/
def save_file_id_cache (m : List (String × String)) : List (String × String) :=
  normalizeCache m

/-- `load_file_id_cache()`: read the stored mapping if the file exists and
normalize every key; an absent file yields the empty mapping. -/
def load_file_id_cache : Option (List (String × String)) → List (String × String)
  | some stored => normalizeCache stored
  | none => []

theorem normalizeCache_keys_fixed (m acc : List (String × String))
    (hacc : ∀ k ∈ dictKeys acc, normalizeKey k = k) :
    ∀ k ∈ dictKeys (m.foldl (fun acc p => dictInsert (normalizeKey p.1) p.2 acc) acc),
      normalizeKey k = k := by
  induction m generalizing acc with
  | nil => exact hacc
  | cons p rest ih =>
    rw [List.foldl_cons]
    refine ih (dictInsert (normalizeKey p.1) p.2 acc) ?_
    intro k hk
    rw [mem_dictKeys_dictInsert] at hk
    rcases hk with h1 | h1
    · rw [h1]
      exact normalizeKey_normalizeKey p.1
    · exact hacc k h1

theorem normalizeCache_keys_nodup (m acc : List (String × String))
    (hacc : (dictKeys acc).Nodup) :
    (dictKeys (m.foldl (fun acc p => dictInsert (normalizeKey p.1) p.2 acc) acc)).Nodup := by
  induction m generalizing acc with
  | nil => exact hacc
  | cons p rest ih =>
    rw [List.foldl_cons]
    exact ih _ (nodup_dictKeys_dictInsert _ _ _ hacc)

theorem dictKeys_append (a b : List (String × String)) :
    dictKeys (a ++ b) = dictKeys a ++ dictKeys b := by
  unfold dictKeys
  rw [List.map_append]

theorem foldl_norm_of_fixed (m : List (String × String)) :
    ∀ acc, (dictKeys m).Nodup → (∀ k ∈ dictKeys m, normalizeKey k = k) →
    (∀ k ∈ dictKeys m, k ∉ dictKeys acc) →
    m.foldl (fun acc p => dictInsert (normalizeKey p.1) p.2 acc) acc = acc ++ m := by
  induction m with
  | nil =>
    intro acc _ _ _
    rw [List.foldl_nil, List.append_nil]
  | cons p rest ih =>
    intro acc hnd hfix hdis
    rw [dictKeys_cons, List.nodup_cons] at hnd
    have hp_fix : normalizeKey p.1 = p.1 := hfix p.1 (by rw [dictKeys_cons]; exact List.mem_cons_self _ _)
    have hp_not : p.1 ∉ dictKeys acc := hdis p.1 (by rw [dictKeys_cons]; exact List.mem_cons_self _ _)
    rw [List.foldl_cons, hp_fix, dictInsert_of_not_mem p.1 p.2 acc hp_not]
    have step : dictInsert p.1 p.2 acc = acc ++ [p] := by
      rw [dictInsert_of_not_mem p.1 p.2 acc hp_not]
    rw [ih (acc ++ [(p.1, p.2)]) hnd.2
      (fun k hk => hfix k (by rw [dictKeys_cons]; exact List.mem_cons_of_mem _ hk))
      ?_]
    · rw [List.append_assoc, List.singleton_append]
    · intro k hk hmem
      rw [dictKeys_append, List.mem_append] at hmem
      rcases hmem with h1 | h1
      · exact hdis k (by rw [dictKeys_cons]; exact List.mem_cons_of_mem _ hk) h1
      · rw [dictKeys_cons] at h1
        simp only [dictKeys_nil, List.mem_singleton] at h1
        exact hnd.1 (h1 ▸ hk)

theorem normalizeCache_idem (m : List (String × String)) :
    normalizeCache (normalizeCache m) = normalizeCache m := by
  have h := foldl_norm_of_fixed (normalizeCache m) []
    (normalizeCache_keys_nodup m [] List.nodup_nil)
    (normalizeCache_keys_fixed m [] (by intro k hk; cases hk))
    (by intro k _ hmem; cases hmem)
  unfold normalizeCache at h ⊢
  rw [h, List.nil_append]

/-! ## AudioManager (src/audio_manager.py)

The directory walk of `_load_audio_files` is modelled as a list of files,
each given by its directory segments relative to the audio root and its
filename; `os.walk`, `os.path.join` and `os.path.relpath` are modelled with
POSIX forward-slash separators, so the stored relative path of a walked file
is the slash-join of its segments. -/

/-- Python `file.endswith((str1, str2))` with the two recognized audio
extensions. -/
def isAudioFile (file : String) : Bool :=
  ".wav".data.isSuffixOf file.data || ".ogg".data.isSuffixOf file.data

/-- `os.path.relpath(os.path.join(root, file), self.audio_dir)` under POSIX:
the slash-join of the file's root-relative directory segments and name. -/
def relPathOf (dirs : List String) (file : String) : String :=
  joinSlash (dirs ++ [file])

/-- The display-name computation of `_load_audio_files` as written: it uses
`relative_path` for the split and, in the no-subdirectory branch, the raw
`file` name. -/
def displayNameCode (relativePath file : String) : String :=
  if 1 < (pathParts relativePath).length then
    "[" ++ title (joinSlash (pathParts relativePath).dropLast) ++ "] "
      ++ stem ((pathParts relativePath).getLastD "")
  else stem file

/-- The same label computation as a function of the identifier alone
(the no-subdirectory branch strips the identifier itself, which in that
branch equals the filename). -/
def labelOfIdentifier (identifier : String) : String :=
  if 1 < (pathParts identifier).length then
    "[" ++ title (joinSlash (pathParts identifier).dropLast) ++ "] "
      ++ stem ((pathParts identifier).getLastD "")
  else stem identifier

/-- `AudioManager._load_audio_files`: walk every file, keep the recognized
audio extensions, and record `audio_files[relative_path] = display_name`. -/
def load_audio_files (walk : List (List String × String)) : List (String × String) :=
  walk.foldl (fun acc e =>
    if isAudioFile e.2 then
      dictInsert (relPathOf e.1 e.2) (displayNameCode (relPathOf e.1 e.2) e.2) acc
    else acc) []

/-- A walked name is clean when it contains neither separator character;
POSIX file and directory names cannot contain a slash, and backslashes do
not occur in the repository's asset names. -/
def cleanSeg (s : String) : Prop := '/' ∉ s.data ∧ '\\' ∉ s.data

instance (s : String) : Decidable (cleanSeg s) := by
  unfold cleanSeg
  infer_instance

theorem joinSlash_data_cons (s : String) (rest : List String) (h : rest ≠ []) :
    (joinSlash (s :: rest)).data = s.data ++ '/' :: (joinSlash rest).data := by
  match rest with
  | [] => exact absurd rfl h
  | r :: t =>
    rw [joinSlash_cons_cons, String.data_append, String.data_append,
      List.append_assoc]
    congr 1

theorem pathParts_relPathOf (dirs : List String) (file : String)
    (hd : ∀ s ∈ dirs, cleanSeg s) (hf : cleanSeg file) :
    pathParts (relPathOf dirs file) = dirs ++ [file] := by
  induction dirs with
  | nil =>
    unfold pathParts relPathOf
    simp only [List.nil_append]
    rw [show joinSlash [file] = file from rfl,
      map_normChar_of_no_backslash file.data hf.2,
      splitChar_of_not_mem '/' file.data hf.1,
      List.map_cons, List.map_nil,
      show String.mk file.data = file from by cases file; rfl]
  | cons d rest ih =>
    have hdclean : cleanSeg d := hd d (List.mem_cons_self _ _)
    have hrest : ∀ s ∈ rest, cleanSeg s := fun s hs => hd s (List.mem_cons_of_mem _ hs)
    unfold pathParts relPathOf at ih ⊢
    rw [show (d :: rest) ++ [file] = d :: (rest ++ [file]) from rfl]
    rw [joinSlash_data_cons d (rest ++ [file]) (by simp)]
    rw [List.map_append, map_normChar_of_no_backslash d.data hdclean.2]
    rw [show List.map normChar ('/' :: (joinSlash (rest ++ [file])).data)
          = '/' :: List.map normChar (joinSlash (rest ++ [file])).data from rfl]
    rw [splitChar_append_sep '/' d.data _ hdclean.1]
    rw [List.map_cons, ih hrest]

theorem load_audio_files_keys_aux (walk : List (List String × String)) :
    ∀ acc : List (String × String),
    ∀ k, k ∈ dictKeys (walk.foldl (fun acc e =>
        if isAudioFile e.2 then
          dictInsert (relPathOf e.1 e.2) (displayNameCode (relPathOf e.1 e.2) e.2) acc
        else acc) acc) ↔
      k ∈ dictKeys acc ∨ ∃ e ∈ walk, isAudioFile e.2 = true ∧ relPathOf e.1 e.2 = k := by
  induction walk with
  | nil =>
    intro acc k
    simp
  | cons e rest ih =>
    intro acc k
    rw [List.foldl_cons]
    by_cases he : isAudioFile e.2 = true
    · rw [if_pos he, ih, mem_dictKeys_dictInsert]
      constructor
      · rintro ((h1 | h1) | h1)
        · exact Or.inr ⟨e, List.mem_cons_self _ _, he, h1.symm⟩
        · exact Or.inl h1
        · rcases h1 with ⟨f, hf, haf, hp⟩
          exact Or.inr ⟨f, List.mem_cons_of_mem _ hf, haf, hp⟩
      · rintro (h1 | ⟨f, hf, haf, hp⟩)
        · exact Or.inl (Or.inr h1)
        · rcases List.mem_cons.mp hf with h2 | h2
          · subst h2
            exact Or.inl (Or.inl hp.symm)
          · exact Or.inr ⟨f, h2, haf, hp⟩
    · rw [if_neg he, ih]
      constructor
      · rintro (h1 | ⟨f, hf, haf, hp⟩)
        · exact Or.inl h1
        · exact Or.inr ⟨f, List.mem_cons_of_mem _ hf, haf, hp⟩
      · rintro (h1 | ⟨f, hf, haf, hp⟩)
        · exact Or.inl h1
        · rcases List.mem_cons.mp hf with h2 | h2
          · subst h2
            exact absurd haf he
          · exact Or.inr ⟨f, h2, haf, hp⟩

theorem load_audio_files_keys_nodup_aux (walk : List (List String × String)) :
    ∀ acc : List (String × String), (dictKeys acc).Nodup →
    (dictKeys (walk.foldl (fun acc e =>
        if isAudioFile e.2 then
          dictInsert (relPathOf e.1 e.2) (displayNameCode (relPathOf e.1 e.2) e.2) acc
        else acc) acc)).Nodup := by
  induction walk with
  | nil => exact fun acc h => h
  | cons e rest ih =>
    intro acc hacc
    rw [List.foldl_cons]
    by_cases he : isAudioFile e.2 = true
    · rw [if_pos he]
      exact ih _ (nodup_dictKeys_dictInsert _ _ _ hacc)
    · rw [if_neg he]
      exact ih _ hacc

/-! ## Fuzzy search: `AudioManager.search` (src/audio_manager.py lines 45-75)

`rapidfuzz.process.extract` with an arbitrary scorer: score every candidate,
rank by score descending (the tie order among equal scores is an
implementation detail of the library), and keep the best `limit`.  The
scorer itself (`fuzz.partial_ratio`) is an external library boundary and is
a parameter of the model. -/

/-- Insert a scored candidate into a score-descending list (the order among
equal scores is not part of the library's contract). -/
def insertByScore (p : String × ℚ) : List (String × ℚ) → List (String × ℚ)
  | [] => [p]
  | q :: rest => if q.2 < p.2 then p :: q :: rest else q :: insertByScore p rest

/-- Rank scored candidates by score descending. -/
def rankByScore : List (String × ℚ) → List (String × ℚ)
  | [] => []
  | p :: rest => insertByScore p (rankByScore rest)

/-- `process.extract(query, display_names, scorer=..., limit=limit)`:
(choice, score) pairs of the `limit` best-scoring candidates, ranked by
score descending. -/
def extract (scorer : String → String → ℚ) (query : String)
    (choices : List String) (limit : Nat) : List (String × ℚ) :=
  (rankByScore (choices.map (fun c => (c, scorer query c)))).take limit

/-- `AudioManager.search`: empty query short-circuits; otherwise extract the
top `limit` display names, keep those scoring strictly above 30, and map
each back to the first catalog entry carrying that display name. -/
def search (scorer : String → String → ℚ) (audioFiles : List (String × String))
    (query : String) (limit : Nat) : List (String × String × ℚ) :=
  if query = "" then []
  else
    (extract scorer query (audioFiles.map (fun p => p.2)) limit).filterMap
      (fun r =>
        if (30 : ℚ) < r.2 then
          match audioFiles.find? (fun p => p.2 == r.1) with
          | some p => some (p.1, r.1, r.2)
          | none => none
        else none)

/-! ## Query Responder: `inline_query_handler` (src/bot.py lines 283-336)

The answer payload is modelled as the list of surfaced results — each
carrying the identifier it was built from, the cached `voice_file_id` and
the display-name title — together with the `cache_time` argument. -/

/-- `inline_query_handler`: strip the query, search with limit 20, keep only
results whose identifier has a cached handle, and answer with at most 50 of
them (`cache_time=300`); an empty ranked or filtered list answers empty with
`cache_time=1`. -/
def inline_query_handler (scorer : String → String → ℚ)
    (audioFiles cache : List (String × String)) (rawQuery : String) :
    List (String × String × String) × Nat :=
  let results := search scorer audioFiles (pyStrip rawQuery) 20
  if results = [] then ([], 1)
  else
    let inlineResults := results.filterMap (fun r =>
      match dictLookup r.1 cache with
      | some fid => some (r.1, fid, r.2.1)
      | none => none)
    if inlineResults = [] then ([], 1)
    else (inlineResults.take 50, 300)

/-! ## Acquisition pipeline: `cmd_upload` (src/bot.py lines 175-280)

The Telegram transport is an oracle for every fallible call inside the
retry loop's `try` block: `message.answer_voice` (per identifier and
attempt number, the value of `retry_count` at the call), the follow-up
`sent_message.delete()` (per identifier and attempt), and the checkpoint
progress send `message.answer(progress_msg)` (per value of the `uploaded`
counter, which is strictly increasing and so identifies the checkpoint).
Each can succeed, raise `TelegramRetryAfter` with a cooldown, or raise a
generic exception.  Crucially, the cache write and `uploaded += 1` precede
`delete()` in the `try` block, so a failing `delete()` or a generically
failing progress send lands in the `except` handlers after those side
effects and re-runs the entry.  A `TelegramRetryAfter` from the progress
send is swallowed by its inner `except` (only logged).

The pause notification inside the rate-limit handler, the start
announcement and the final summary send are modelled as always-emitted
events: the code guards them against `TelegramRetryAfter` and ignores such
failures (an unguarded generic failure there would abort the whole handler
and is outside the modelled transport faults, as is a write failure of the
cache file, an open question the spec leaves unguarded).

The handler body after its admin gate becomes a pure function on a run
state that also records the trace of observable events: transport calls,
artifact-deletion calls, sleeps, cache persists, progress messages,
failure logs and the final summary message. -/

/-- Outcome of one `message.answer_voice` transport call: success with the
issued `file_id`, a `TelegramRetryAfter` carrying its cooldown in seconds,
or a generic exception. -/
inductive Outcome where
  | success (fileId : String)
  | rateLimited (retryAfter : Nat)
  | transientError
deriving DecidableEq

/-- Outcome of an auxiliary transport call inside the `try` block
(`sent_message.delete()` or the checkpoint progress send): it returns, it
raises `TelegramRetryAfter` with a cooldown, or it raises generically. -/
inductive AuxOutcome where
  | ok
  | rateLimited (retryAfter : Nat)
  | failure
deriving DecidableEq

/-- The transport boundary of one `cmd_upload` run: the acquisition call,
the artifact deletion, and the checkpoint progress send. -/
structure Transport where
  answerVoice : String → Nat → Outcome
  deleteMsg : String → Nat → AuxOutcome
  progressSend : Nat → AuxOutcome

/-- Observable events of one pipeline run, in order. -/
inductive Event where
  | startMsg
  | transportCall (id : String) (attempt : Nat)
  | deleteArtifact (id : String)
  | sleep (seconds : Nat)
  | rateLimitNotice (retryAfter : Nat)
  | saveCache (cache : List (String × String))
  | progressMsg (total uploaded skipped errors : Nat)
  | failLog (id : String)
  | finalMsg (total uploaded skipped errors : Nat)
deriving DecidableEq

/-- The mutable state of a `cmd_upload` run: the in-memory `file_id_cache`
and the `uploaded` / `skipped` / `errors` counters, plus the event trace. -/
structure RunState where
  cache : List (String × String)
  uploaded : Nat
  skipped : Nat
  errors : Nat
  trace : List Event
deriving DecidableEq

/-- The `while retry_count < max_retries` loop for one catalog entry.
`fuel` is `max_retries - retry_count`, so the loop is entered with fuel 3
and attempt number 0.  The `try` block per iteration: `answer_voice`; on
its success the cache write and `uploaded += 1` happen at once, then
`sent_message.delete()` is called, then the fixed 1-second sleep, then —
when `uploaded` is a multiple of 10 — the cache is persisted and the
progress send is attempted (a `TelegramRetryAfter` there is swallowed by
the inner `except`), then `break`.  A `TelegramRetryAfter` raised by
`answer_voice` or `delete()` reaches the outer handler: notify, sleep
`retry_after + 2`, `retry_count += 1`.  A generic exception from
`answer_voice`, `delete()` or the progress send reaches the generic
handler: `errors += 1`, `retry_count += 1`, sleep 1 second.  So a failing
`delete()` or progress send re-runs an entry whose upload already counted.
When the budget is exhausted the post-loop `retry_count >= max_retries`
branch logs the failure. -/
def attemptLoop (T : Transport) (total : Nat) (id : String) :
    Nat → Nat → RunState → RunState
  | 0, _, st => { st with trace := st.trace ++ [Event.failLog id] }
  | fuel + 1, attempt, st =>
    match T.answerVoice id attempt with
    | Outcome.rateLimited retryAfter =>
      attemptLoop T total id fuel (attempt + 1)
        { st with trace := st.trace ++
            [Event.transportCall id attempt, Event.rateLimitNotice retryAfter,
             Event.sleep (retryAfter + 2)] }
    | Outcome.transientError =>
      attemptLoop T total id fuel (attempt + 1)
        { st with
          errors := st.errors + 1
          trace := st.trace ++ [Event.transportCall id attempt, Event.sleep 1] }
    | Outcome.success fileId =>
      let cache' := dictInsert id fileId st.cache
      let uploaded' := st.uploaded + 1
      match T.deleteMsg id attempt with
      | AuxOutcome.rateLimited retryAfter =>
        attemptLoop T total id fuel (attempt + 1)
          { st with
            cache := cache'
            uploaded := uploaded'
            trace := st.trace ++
              [Event.transportCall id attempt, Event.deleteArtifact id,
               Event.rateLimitNotice retryAfter, Event.sleep (retryAfter + 2)] }
      | AuxOutcome.failure =>
        attemptLoop T total id fuel (attempt + 1)
          { st with
            cache := cache'
            uploaded := uploaded'
            errors := st.errors + 1
            trace := st.trace ++
              [Event.transportCall id attempt, Event.deleteArtifact id,
               Event.sleep 1] }
      | AuxOutcome.ok =>
        if uploaded' % 10 = 0 then
          match T.progressSend uploaded' with
          | AuxOutcome.failure =>
            attemptLoop T total id fuel (attempt + 1)
              { st with
                cache := cache'
                uploaded := uploaded'
                errors := st.errors + 1
                trace := st.trace ++
                  [Event.transportCall id attempt, Event.deleteArtifact id,
                   Event.sleep 1, Event.saveCache cache',
                   Event.progressMsg total uploaded' st.skipped st.errors,
                   Event.sleep 1] }
          | AuxOutcome.ok =>
            { st with
              cache := cache'
              uploaded := uploaded'
              trace := st.trace ++
                [Event.transportCall id attempt, Event.deleteArtifact id,
                 Event.sleep 1, Event.saveCache cache',
                 Event.progressMsg total uploaded' st.skipped st.errors] }
          | AuxOutcome.rateLimited _ =>
            { st with
              cache := cache'
              uploaded := uploaded'
              trace := st.trace ++
                [Event.transportCall id attempt, Event.deleteArtifact id,
                 Event.sleep 1, Event.saveCache cache',
                 Event.progressMsg total uploaded' st.skipped st.errors] }
        else
          { st with
            cache := cache'
            uploaded := uploaded'
            trace := st.trace ++
              [Event.transportCall id attempt, Event.deleteArtifact id,
               Event.sleep 1] }

/-- One iteration of the `for relative_path, display_name in all_files.items()`
loop: a cache hit bumps `skipped` and continues, otherwise the retry loop
runs with a budget of `max_retries = 3`. -/
def processEntry (T : Transport) (total : Nat)
    (st : RunState) (entry : String × String) : RunState :=
  if (dictLookup entry.1 st.cache).isSome then { st with skipped := st.skipped + 1 }
  else attemptLoop T total entry.1 3 0 st

/-- `cmd_upload` after its admin gate: announce the start, process every
catalog entry in order, persist the cache one final time, and send the final
summary message. -/
def cmd_upload (T : Transport)
    (allFiles : List (String × String)) (initCache : List (String × String)) :
    RunState :=
  let total := allFiles.length
  let st := allFiles.foldl (processEntry T total)
    { cache := initCache, uploaded := 0, skipped := 0, errors := 0,
      trace := [Event.startMsg] }
  { st with trace := st.trace ++
      [Event.saveCache st.cache,
       Event.finalMsg total st.uploaded st.skipped st.errors] }

/-- Trace fragment produced by `fuel` consecutive generic-error attempts
starting at the given attempt number. -/
def transientTrace (id : String) : Nat → Nat → List Event
  | _, 0 => []
  | attempt, fuel + 1 =>
    Event.transportCall id attempt :: Event.sleep 1 ::
      transientTrace id (attempt + 1) fuel

/-- Recognizer for transport-call events of a given identifier. -/
def isCallFor (id : String) : Event → Bool
  | Event.transportCall i _ => i == id
  | _ => false

/-- Recognizer for one-second sleeps (the fixed delay constant). -/
def isSleepOne : Event → Bool
  | Event.sleep s => s == 1
  | _ => false

/-- Recognizer for any sleep event. -/
def isSleep : Event → Bool
  | Event.sleep _ => true
  | _ => false

/-- Recognizer for cache-persist events. -/
def isSave : Event → Bool
  | Event.saveCache _ => true
  | _ => false

/-- Recognizer for progress-message events. -/
def isProgress : Event → Bool
  | Event.progressMsg _ _ _ _ => true
  | _ => false

@[simp] theorem isCallFor_startMsg (k : String) : isCallFor k Event.startMsg = false := rfl

@[simp] theorem isCallFor_transportCall (k i : String) (a : Nat) :
    isCallFor k (Event.transportCall i a) = (i == k) := rfl

@[simp] theorem isCallFor_deleteArtifact (k i : String) :
    isCallFor k (Event.deleteArtifact i) = false := rfl

@[simp] theorem isCallFor_sleep (k : String) (s : Nat) :
    isCallFor k (Event.sleep s) = false := rfl

@[simp] theorem isCallFor_rateLimitNotice (k : String) (n : Nat) :
    isCallFor k (Event.rateLimitNotice n) = false := rfl

@[simp] theorem isCallFor_saveCache (k : String) (c : List (String × String)) :
    isCallFor k (Event.saveCache c) = false := rfl

@[simp] theorem isCallFor_progressMsg (k : String) (a b c d : Nat) :
    isCallFor k (Event.progressMsg a b c d) = false := rfl

@[simp] theorem isCallFor_failLog (k i : String) :
    isCallFor k (Event.failLog i) = false := rfl

@[simp] theorem isCallFor_finalMsg (k : String) (a b c d : Nat) :
    isCallFor k (Event.finalMsg a b c d) = false := rfl

@[simp] theorem isSleepOne_startMsg : isSleepOne Event.startMsg = false := rfl

@[simp] theorem isSleepOne_transportCall (i : String) (a : Nat) :
    isSleepOne (Event.transportCall i a) = false := rfl

@[simp] theorem isSleepOne_deleteArtifact (i : String) :
    isSleepOne (Event.deleteArtifact i) = false := rfl

@[simp] theorem isSleepOne_sleep (s : Nat) : isSleepOne (Event.sleep s) = (s == 1) := rfl

@[simp] theorem isSleepOne_rateLimitNotice (n : Nat) :
    isSleepOne (Event.rateLimitNotice n) = false := rfl

@[simp] theorem isSleepOne_saveCache (c : List (String × String)) :
    isSleepOne (Event.saveCache c) = false := rfl

@[simp] theorem isSleepOne_progressMsg (a b c d : Nat) :
    isSleepOne (Event.progressMsg a b c d) = false := rfl

@[simp] theorem isSleepOne_failLog (i : String) : isSleepOne (Event.failLog i) = false := rfl

@[simp] theorem isSleepOne_finalMsg (a b c d : Nat) :
    isSleepOne (Event.finalMsg a b c d) = false := rfl

@[simp] theorem isSleep_startMsg : isSleep Event.startMsg = false := rfl

@[simp] theorem isSleep_transportCall (i : String) (a : Nat) :
    isSleep (Event.transportCall i a) = false := rfl

@[simp] theorem isSleep_deleteArtifact (i : String) :
    isSleep (Event.deleteArtifact i) = false := rfl

@[simp] theorem isSleep_sleep (s : Nat) : isSleep (Event.sleep s) = true := rfl

@[simp] theorem isSleep_rateLimitNotice (n : Nat) :
    isSleep (Event.rateLimitNotice n) = false := rfl

@[simp] theorem isSleep_saveCache (c : List (String × String)) :
    isSleep (Event.saveCache c) = false := rfl

@[simp] theorem isSleep_progressMsg (a b c d : Nat) :
    isSleep (Event.progressMsg a b c d) = false := rfl

@[simp] theorem isSleep_failLog (i : String) : isSleep (Event.failLog i) = false := rfl

@[simp] theorem isSleep_finalMsg (a b c d : Nat) :
    isSleep (Event.finalMsg a b c d) = false := rfl

@[simp] theorem isSave_startMsg : isSave Event.startMsg = false := rfl

@[simp] theorem isSave_transportCall (i : String) (a : Nat) :
    isSave (Event.transportCall i a) = false := rfl

@[simp] theorem isSave_deleteArtifact (i : String) :
    isSave (Event.deleteArtifact i) = false := rfl

@[simp] theorem isSave_sleep (s : Nat) : isSave (Event.sleep s) = false := rfl

@[simp] theorem isSave_rateLimitNotice (n : Nat) :
    isSave (Event.rateLimitNotice n) = false := rfl

@[simp] theorem isSave_saveCache (c : List (String × String)) :
    isSave (Event.saveCache c) = true := rfl

@[simp] theorem isSave_progressMsg (a b c d : Nat) :
    isSave (Event.progressMsg a b c d) = false := rfl

@[simp] theorem isSave_failLog (i : String) : isSave (Event.failLog i) = false := rfl

@[simp] theorem isSave_finalMsg (a b c d : Nat) :
    isSave (Event.finalMsg a b c d) = false := rfl

@[simp] theorem isProgress_startMsg : isProgress Event.startMsg = false := rfl

@[simp] theorem isProgress_transportCall (i : String) (a : Nat) :
    isProgress (Event.transportCall i a) = false := rfl

@[simp] theorem isProgress_deleteArtifact (i : String) :
    isProgress (Event.deleteArtifact i) = false := rfl

@[simp] theorem isProgress_sleep (s : Nat) : isProgress (Event.sleep s) = false := rfl

@[simp] theorem isProgress_rateLimitNotice (n : Nat) :
    isProgress (Event.rateLimitNotice n) = false := rfl

@[simp] theorem isProgress_saveCache (c : List (String × String)) :
    isProgress (Event.saveCache c) = false := rfl

@[simp] theorem isProgress_progressMsg (a b c d : Nat) :
    isProgress (Event.progressMsg a b c d) = true := rfl

@[simp] theorem isProgress_failLog (i : String) : isProgress (Event.failLog i) = false := rfl

@[simp] theorem isProgress_finalMsg (a b c d : Nat) :
    isProgress (Event.finalMsg a b c d) = false := rfl

/-- Whether a trace starts with a progress message. -/
def headIsProgress : List Event → Bool
  | e :: _ => isProgress e
  | [] => false

/-- Checkpoint discipline of a trace: every cache persist is immediately
followed by a progress message. -/
def chkOk : List Event → Bool
  | [] => true
  | e :: rest => (!isSave e || headIsProgress rest) && chkOk rest

theorem chkOk_cons (e : Event) (rest : List Event) :
    chkOk (e :: rest) = ((!isSave e || headIsProgress rest) && chkOk rest) := rfl

theorem chkOk_append (l₁ l₂ : List Event) (h1 : chkOk l₁ = true)
    (h2 : chkOk l₂ = true) : chkOk (l₁ ++ l₂) = true := by
  induction l₁ with
  | nil => simpa using h2
  | cons e rest ih =>
    rw [chkOk_cons, Bool.and_eq_true] at h1
    rw [List.cons_append, chkOk_cons, Bool.and_eq_true]
    refine ⟨?_, ih h1.2⟩
    rcases Bool.or_eq_true _ _ |>.mp h1.1 with hs | hp
    · rw [Bool.or_eq_true]
      exact Or.inl hs
    · rw [Bool.or_eq_true]
      right
      cases rest with
      | nil => cases hp
      | cons e2 rest2 => exact hp

/-- Whether a trace starts with a sleep of `n + 2` seconds (the cooldown
plus the fixed safety margin). -/
def headIsSleepOf (n : Nat) : List Event → Bool
  | Event.sleep s :: _ => s == n + 2
  | _ => false

/-- The cooldown obligation one event imposes on the trace following it:
a rate-limit notification must be followed immediately by a sleep of the
reported cooldown plus two seconds. -/
def noticeCooldown : Event → List Event → Bool
  | Event.rateLimitNotice n, rest => headIsSleepOf n rest
  | _, _ => true

/-- Cooldown discipline of a trace: every rate-limit notification is
immediately followed by a sleep of its cooldown plus two seconds. -/
def cooldownOk : List Event → Bool
  | [] => true
  | e :: rest => noticeCooldown e rest && cooldownOk rest

theorem cooldownOk_cons (e : Event) (rest : List Event) :
    cooldownOk (e :: rest) = (noticeCooldown e rest && cooldownOk rest) := rfl

theorem cooldownOk_append (l₁ l₂ : List Event) (h1 : cooldownOk l₁ = true)
    (h2 : cooldownOk l₂ = true) : cooldownOk (l₁ ++ l₂) = true := by
  induction l₁ with
  | nil => simpa using h2
  | cons e rest ih =>
    rw [cooldownOk_cons, Bool.and_eq_true] at h1
    rw [List.cons_append, cooldownOk_cons, Bool.and_eq_true]
    refine ⟨?_, ih h1.2⟩
    cases e
    case rateLimitNotice n =>
      have hh : headIsSleepOf n rest = true := h1.1
      show headIsSleepOf n (rest ++ l₂) = true
      cases rest with
      | nil => simp [headIsSleepOf] at hh
      | cons x rest2 => cases x <;> exact hh
    all_goals rfl

theorem cooldownOk_rl_chunk (id : String) (attempt n : Nat) :
    cooldownOk [Event.transportCall id attempt, Event.rateLimitNotice n,
      Event.sleep (n + 2)] = true := by
  simp [cooldownOk_cons, noticeCooldown, headIsSleepOf]
  rfl

theorem cooldownOk_rl_delete_chunk (id : String) (attempt n : Nat) :
    cooldownOk [Event.transportCall id attempt, Event.deleteArtifact id,
      Event.rateLimitNotice n, Event.sleep (n + 2)] = true := by
  simp [cooldownOk_cons, noticeCooldown, headIsSleepOf]
  rfl

theorem attemptLoop_zero (T : Transport) (total : Nat)
    (id : String) (attempt : Nat) (st : RunState) :
    attemptLoop T total id 0 attempt st
      = { st with trace := st.trace ++ [Event.failLog id] } := rfl

theorem attemptLoop_rateLimited_step (T : Transport)
    (total : Nat) (id : String) (fuel attempt : Nat) (st : RunState)
    (retryAfter : Nat)
    (h : T.answerVoice id attempt = Outcome.rateLimited retryAfter) :
    attemptLoop T total id (fuel + 1) attempt st
      = attemptLoop T total id fuel (attempt + 1)
          { st with trace := st.trace ++
              [Event.transportCall id attempt, Event.rateLimitNotice retryAfter,
               Event.sleep (retryAfter + 2)] } := by
  conv_lhs => unfold attemptLoop
  rw [h]

theorem attemptLoop_transient_step (T : Transport)
    (total : Nat) (id : String) (fuel attempt : Nat) (st : RunState)
    (h : T.answerVoice id attempt = Outcome.transientError) :
    attemptLoop T total id (fuel + 1) attempt st
      = attemptLoop T total id fuel (attempt + 1)
          { st with
            errors := st.errors + 1
            trace := st.trace ++
              [Event.transportCall id attempt, Event.sleep 1] } := by
  conv_lhs => unfold attemptLoop
  rw [h]

theorem attemptLoop_deleteRateLimited_step (T : Transport)
    (total : Nat) (id : String) (fuel attempt : Nat) (st : RunState)
    (fileId : String) (retryAfter : Nat)
    (h1 : T.answerVoice id attempt = Outcome.success fileId)
    (h2 : T.deleteMsg id attempt = AuxOutcome.rateLimited retryAfter) :
    attemptLoop T total id (fuel + 1) attempt st
      = attemptLoop T total id fuel (attempt + 1)
          { st with
            cache := dictInsert id fileId st.cache
            uploaded := st.uploaded + 1
            trace := st.trace ++
              [Event.transportCall id attempt, Event.deleteArtifact id,
               Event.rateLimitNotice retryAfter,
               Event.sleep (retryAfter + 2)] } := by
  conv_lhs => unfold attemptLoop
  simp only [h1, h2]

theorem attemptLoop_deleteFailure_step (T : Transport)
    (total : Nat) (id : String) (fuel attempt : Nat) (st : RunState)
    (fileId : String)
    (h1 : T.answerVoice id attempt = Outcome.success fileId)
    (h2 : T.deleteMsg id attempt = AuxOutcome.failure) :
    attemptLoop T total id (fuel + 1) attempt st
      = attemptLoop T total id fuel (attempt + 1)
          { st with
            cache := dictInsert id fileId st.cache
            uploaded := st.uploaded + 1
            errors := st.errors + 1
            trace := st.trace ++
              [Event.transportCall id attempt, Event.deleteArtifact id,
               Event.sleep 1] } := by
  conv_lhs => unfold attemptLoop
  simp only [h1, h2]

theorem attemptLoop_clean_nochk_step (T : Transport)
    (total : Nat) (id : String) (fuel attempt : Nat) (st : RunState)
    (fileId : String)
    (h1 : T.answerVoice id attempt = Outcome.success fileId)
    (h2 : T.deleteMsg id attempt = AuxOutcome.ok)
    (hmod : ¬(st.uploaded + 1) % 10 = 0) :
    attemptLoop T total id (fuel + 1) attempt st
      = { st with
          cache := dictInsert id fileId st.cache
          uploaded := st.uploaded + 1
          trace := st.trace ++
            [Event.transportCall id attempt, Event.deleteArtifact id,
             Event.sleep 1] } := by
  conv_lhs => unfold attemptLoop
  simp only [h1, h2]
  rw [if_neg hmod]

theorem attemptLoop_chk_ok_step (T : Transport)
    (total : Nat) (id : String) (fuel attempt : Nat) (st : RunState)
    (fileId : String)
    (h1 : T.answerVoice id attempt = Outcome.success fileId)
    (h2 : T.deleteMsg id attempt = AuxOutcome.ok)
    (hmod : (st.uploaded + 1) % 10 = 0)
    (h3 : T.progressSend (st.uploaded + 1) = AuxOutcome.ok) :
    attemptLoop T total id (fuel + 1) attempt st
      = { st with
          cache := dictInsert id fileId st.cache
          uploaded := st.uploaded + 1
          trace := st.trace ++
            [Event.transportCall id attempt, Event.deleteArtifact id,
             Event.sleep 1, Event.saveCache (dictInsert id fileId st.cache),
             Event.progressMsg total (st.uploaded + 1) st.skipped st.errors] } := by
  conv_lhs => unfold attemptLoop
  simp only [h1, h2]
  rw [if_pos hmod, h3]

theorem attemptLoop_chk_rateLimited_step (T : Transport)
    (total : Nat) (id : String) (fuel attempt : Nat) (st : RunState)
    (fileId : String) (retryAfter : Nat)
    (h1 : T.answerVoice id attempt = Outcome.success fileId)
    (h2 : T.deleteMsg id attempt = AuxOutcome.ok)
    (hmod : (st.uploaded + 1) % 10 = 0)
    (h3 : T.progressSend (st.uploaded + 1) = AuxOutcome.rateLimited retryAfter) :
    attemptLoop T total id (fuel + 1) attempt st
      = { st with
          cache := dictInsert id fileId st.cache
          uploaded := st.uploaded + 1
          trace := st.trace ++
            [Event.transportCall id attempt, Event.deleteArtifact id,
             Event.sleep 1, Event.saveCache (dictInsert id fileId st.cache),
             Event.progressMsg total (st.uploaded + 1) st.skipped st.errors] } := by
  conv_lhs => unfold attemptLoop
  simp only [h1, h2]
  rw [if_pos hmod, h3]

theorem attemptLoop_chk_failure_step (T : Transport)
    (total : Nat) (id : String) (fuel attempt : Nat) (st : RunState)
    (fileId : String)
    (h1 : T.answerVoice id attempt = Outcome.success fileId)
    (h2 : T.deleteMsg id attempt = AuxOutcome.ok)
    (hmod : (st.uploaded + 1) % 10 = 0)
    (h3 : T.progressSend (st.uploaded + 1) = AuxOutcome.failure) :
    attemptLoop T total id (fuel + 1) attempt st
      = attemptLoop T total id fuel (attempt + 1)
          { st with
            cache := dictInsert id fileId st.cache
            uploaded := st.uploaded + 1
            errors := st.errors + 1
            trace := st.trace ++
              [Event.transportCall id attempt, Event.deleteArtifact id,
               Event.sleep 1, Event.saveCache (dictInsert id fileId st.cache),
               Event.progressMsg total (st.uploaded + 1) st.skipped st.errors,
               Event.sleep 1] } := by
  conv_lhs => unfold attemptLoop
  simp only [h1, h2]
  rw [if_pos hmod, h3]

/-- An entry whose acquisition calls always fail generically burns its whole
budget: the loop adds one error and one (call, sleep) pair per attempt and
ends with the failure log, leaving the cache and the other counters
untouched — the artifact deletion is never reached. -/
theorem attemptLoop_transient (T : Transport)
    (total : Nat) (id : String)
    (htr : ∀ a, T.answerVoice id a = Outcome.transientError) :
    ∀ fuel attempt (st : RunState),
    attemptLoop T total id fuel attempt st
      = { st with
          errors := st.errors + fuel
          trace := st.trace ++ (transientTrace id attempt fuel ++ [Event.failLog id]) } := by
  intro fuel
  induction fuel with
  | zero =>
    intro attempt st
    rfl
  | succ fuel ih =>
    intro attempt st
    rw [attemptLoop_transient_step T total id fuel attempt st (htr attempt),
      ih (attempt + 1) _]
    cases st with
    | mk c u sk er tr =>
      simp only [RunState.mk.injEq, true_and]
      refine ⟨by omega, ?_⟩
      rw [show transientTrace id attempt (fuel + 1)
            = Event.transportCall id attempt :: Event.sleep 1 ::
              transientTrace id (attempt + 1) fuel from rfl]
      simp [List.append_assoc]

theorem countP_transientTrace_self (id : String) :
    ∀ fuel attempt, List.countP (isCallFor id) (transientTrace id attempt fuel) = fuel := by
  intro fuel
  induction fuel with
  | zero => intro attempt; rfl
  | succ fuel ih =>
    intro attempt
    rw [show transientTrace id attempt (fuel + 1)
          = Event.transportCall id attempt :: Event.sleep 1 ::
            transientTrace id (attempt + 1) fuel from rfl]
    simp [List.countP_cons, ih]

/-- Processing an entry touches no other identifier: lookups of other keys
and transport-call counts for other identifiers are preserved, errors only
grow, and the skipped counter is untouched by the retry loop. -/
theorem attemptLoop_other (T : Transport) (total : Nat)
    (id : String) :
    ∀ fuel attempt (st : RunState) (k : String), k ≠ id →
    dictLookup k (attemptLoop T total id fuel attempt st).cache
        = dictLookup k st.cache ∧
    List.countP (isCallFor k) (attemptLoop T total id fuel attempt st).trace
        = List.countP (isCallFor k) st.trace ∧
    st.errors ≤ (attemptLoop T total id fuel attempt st).errors ∧
    (attemptLoop T total id fuel attempt st).skipped = st.skipped := by
  intro fuel
  induction fuel with
  | zero =>
    intro attempt st k _
    rw [attemptLoop_zero]
    refine ⟨rfl, ?_, le_refl _, rfl⟩
    simp [List.countP_append]
  | succ fuel ih =>
    intro attempt st k hk
    cases hout : T.answerVoice id attempt with
    | rateLimited n =>
      rw [attemptLoop_rateLimited_step T total id fuel attempt st n hout]
      rcases ih (attempt + 1) _ k hk with ⟨g1, g2, g3, g4⟩
      refine ⟨g1, ?_, g3, g4⟩
      rw [g2]
      simp [List.countP_append, List.countP_cons, beq_iff_eq, Ne.symm hk]
    | transientError =>
      rw [attemptLoop_transient_step T total id fuel attempt st hout]
      rcases ih (attempt + 1) _ k hk with ⟨g1, g2, g3, g4⟩
      refine ⟨g1, ?_, le_trans (Nat.le_succ _) g3, g4⟩
      rw [g2]
      simp [List.countP_append, List.countP_cons, beq_iff_eq, Ne.symm hk]
    | success f =>
      cases hdel : T.deleteMsg id attempt with
      | rateLimited n =>
        rw [attemptLoop_deleteRateLimited_step T total id fuel attempt st f n hout hdel]
        rcases ih (attempt + 1)
          { st with
            cache := dictInsert id f st.cache
            uploaded := st.uploaded + 1
            trace := st.trace ++
              [Event.transportCall id attempt, Event.deleteArtifact id,
               Event.rateLimitNotice n, Event.sleep (n + 2)] } k hk
          with ⟨g1, g2, g3, g4⟩
        refine ⟨?_, ?_, g3, g4⟩
        · rw [g1]
          exact dictLookup_dictInsert_ne k id f st.cache (Ne.symm hk)
        · rw [g2]
          simp [List.countP_append, List.countP_cons, beq_iff_eq, Ne.symm hk]
      | failure =>
        rw [attemptLoop_deleteFailure_step T total id fuel attempt st f hout hdel]
        rcases ih (attempt + 1)
          { st with
            cache := dictInsert id f st.cache
            uploaded := st.uploaded + 1
            errors := st.errors + 1
            trace := st.trace ++
              [Event.transportCall id attempt, Event.deleteArtifact id,
               Event.sleep 1] } k hk
          with ⟨g1, g2, g3, g4⟩
        refine ⟨?_, ?_, le_trans (Nat.le_succ _) g3, g4⟩
        · rw [g1]
          exact dictLookup_dictInsert_ne k id f st.cache (Ne.symm hk)
        · rw [g2]
          simp [List.countP_append, List.countP_cons, beq_iff_eq, Ne.symm hk]
      | ok =>
        by_cases hmod : (st.uploaded + 1) % 10 = 0
        · cases hprog : T.progressSend (st.uploaded + 1) with
          | failure =>
            rw [attemptLoop_chk_failure_step T total id fuel attempt st f hout hdel
              hmod hprog]
            rcases ih (attempt + 1)
              { st with
                cache := dictInsert id f st.cache
                uploaded := st.uploaded + 1
                errors := st.errors + 1
                trace := st.trace ++
                  [Event.transportCall id attempt, Event.deleteArtifact id,
                   Event.sleep 1, Event.saveCache (dictInsert id f st.cache),
                   Event.progressMsg total (st.uploaded + 1) st.skipped st.errors,
                   Event.sleep 1] } k hk
              with ⟨g1, g2, g3, g4⟩
            refine ⟨?_, ?_, le_trans (Nat.le_succ _) g3, g4⟩
            · rw [g1]
              exact dictLookup_dictInsert_ne k id f st.cache (Ne.symm hk)
            · rw [g2]
              simp [List.countP_append, List.countP_cons, beq_iff_eq, Ne.symm hk]
          | ok =>
            rw [attemptLoop_chk_ok_step T total id fuel attempt st f hout hdel
              hmod hprog]
            refine ⟨dictLookup_dictInsert_ne k id f st.cache (Ne.symm hk), ?_,
              le_refl _, rfl⟩
            simp [List.countP_append, List.countP_cons, beq_iff_eq, Ne.symm hk]
          | rateLimited n =>
            rw [attemptLoop_chk_rateLimited_step T total id fuel attempt st f n hout
              hdel hmod hprog]
            refine ⟨dictLookup_dictInsert_ne k id f st.cache (Ne.symm hk), ?_,
              le_refl _, rfl⟩
            simp [List.countP_append, List.countP_cons, beq_iff_eq, Ne.symm hk]
        · rw [attemptLoop_clean_nochk_step T total id fuel attempt st f hout hdel hmod]
          refine ⟨dictLookup_dictInsert_ne k id f st.cache (Ne.symm hk), ?_,
            le_refl _, rfl⟩
          simp [List.countP_append, List.countP_cons, beq_iff_eq, Ne.symm hk]

theorem processEntry_other (T : Transport) (total : Nat)
    (st : RunState) (e : String × String) (k : String) (hk : k ≠ e.1) :
    dictLookup k (processEntry T total st e).cache = dictLookup k st.cache ∧
    List.countP (isCallFor k) (processEntry T total st e).trace
        = List.countP (isCallFor k) st.trace ∧
    st.errors ≤ (processEntry T total st e).errors ∧
    st.skipped ≤ (processEntry T total st e).skipped := by
  unfold processEntry
  by_cases hc : (dictLookup e.1 st.cache).isSome = true
  · rw [if_pos hc]
    exact ⟨rfl, rfl, le_refl _, Nat.le_succ _⟩
  · rw [if_neg hc]
    rcases attemptLoop_other T total e.1 3 0 st k hk with ⟨h1, h2, h3, h4⟩
    exact ⟨h1, h2, h3, le_of_eq h4.symm⟩

/-- Folding the pipeline over entries whose identifiers all differ from `k`
preserves the lookup of `k`, performs no transport call for `k`, and only
grows the error and skip counters. -/
theorem run_other (T : Transport) (total : Nat) (k : String) :
    ∀ (l : List (String × String)) (st : RunState),
    k ∉ l.map (fun e => e.1) →
    dictLookup k (l.foldl (processEntry T total) st).cache
        = dictLookup k st.cache ∧
    List.countP (isCallFor k) ((l.foldl (processEntry T total) st)).trace
        = List.countP (isCallFor k) st.trace ∧
    st.errors ≤ (l.foldl (processEntry T total) st).errors ∧
    st.skipped ≤ (l.foldl (processEntry T total) st).skipped := by
  intro l
  induction l with
  | nil =>
    intro st _
    exact ⟨rfl, rfl, le_refl _, le_refl _⟩
  | cons e rest ih =>
    intro st hk
    rw [List.map_cons, List.mem_cons] at hk
    push_neg at hk
    rw [List.foldl_cons]
    rcases processEntry_other T total st e k hk.1 with ⟨h1, h2, h3, h4⟩
    rcases ih (processEntry T total st e) hk.2 with ⟨g1, g2, g3, g4⟩
    exact ⟨g1.trans h1, g2.trans h2, le_trans h3 g3, le_trans h4 g4⟩

/-- The run state at process start: the freshly loaded cache, zeroed
counters, and the start announcement already sent. -/
def initState (initCache : List (String × String)) : RunState :=
  { cache := initCache, uploaded := 0, skipped := 0, errors := 0,
    trace := [Event.startMsg] }

/-- The entry-processing fold of `cmd_upload` before the final persistence. -/
def runFold (T : Transport)
    (allFiles initCache : List (String × String)) : RunState :=
  allFiles.foldl (processEntry T allFiles.length) (initState initCache)

theorem cmd_upload_runFold (T : Transport)
    (allFiles initCache : List (String × String)) :
    cmd_upload T allFiles initCache
      = { runFold T allFiles initCache with
          trace := (runFold T allFiles initCache).trace ++
            [Event.saveCache (runFold T allFiles initCache).cache,
             Event.finalMsg allFiles.length
               (runFold T allFiles initCache).uploaded
               (runFold T allFiles initCache).skipped
               (runFold T allFiles initCache).errors] } := rfl

theorem cmd_upload_trace (T : Transport)
    (allFiles initCache : List (String × String)) :
    (cmd_upload T allFiles initCache).trace
      = (runFold T allFiles initCache).trace ++
          [Event.saveCache (runFold T allFiles initCache).cache,
           Event.finalMsg allFiles.length
             (runFold T allFiles initCache).uploaded
             (runFold T allFiles initCache).skipped
             (runFold T allFiles initCache).errors] := rfl

theorem cmd_upload_cache (T : Transport)
    (allFiles initCache : List (String × String)) :
    (cmd_upload T allFiles initCache).cache
      = (runFold T allFiles initCache).cache := rfl

theorem cmd_upload_uploaded (T : Transport)
    (allFiles initCache : List (String × String)) :
    (cmd_upload T allFiles initCache).uploaded
      = (runFold T allFiles initCache).uploaded := rfl

theorem cmd_upload_skipped (T : Transport)
    (allFiles initCache : List (String × String)) :
    (cmd_upload T allFiles initCache).skipped
      = (runFold T allFiles initCache).skipped := rfl

theorem cmd_upload_errors (T : Transport)
    (allFiles initCache : List (String × String)) :
    (cmd_upload T allFiles initCache).errors
      = (runFold T allFiles initCache).errors := rfl

theorem processEntry_eq (T : Transport) (total : Nat)
    (st : RunState) (e : String × String) :
    processEntry T total st e
      = if (dictLookup e.1 st.cache).isSome = true
          then { st with skipped := st.skipped + 1 }
          else attemptLoop T total e.1 3 0 st := rfl

/-- A cache-missing entry whose acquisition calls always fail generically,
in the middle of a run of other entries: it is called exactly three times,
stays absent from the cache, and contributes three errors. -/
theorem runFold_transient_mid (T : Transport)
    (total : Nat) (l₁ l₂ : List (String × String)) (id label : String)
    (initSt : RunState)
    (hid1 : id ∉ l₁.map (fun e => e.1)) (hid2 : id ∉ l₂.map (fun e => e.1))
    (hinit : dictLookup id initSt.cache = none)
    (hcnt0 : List.countP (isCallFor id) initSt.trace = 0)
    (htr : ∀ a, T.answerVoice id a = Outcome.transientError) :
    List.countP (isCallFor id)
        ((l₁ ++ (id, label) :: l₂).foldl (processEntry T total) initSt).trace
      = 3 ∧
    dictLookup id
        ((l₁ ++ (id, label) :: l₂).foldl (processEntry T total) initSt).cache
      = none ∧
    initSt.errors + 3
      ≤ ((l₁ ++ (id, label) :: l₂).foldl (processEntry T total) initSt).errors := by
  rw [List.foldl_append, List.foldl_cons]
  have hA := run_other T total id l₁ initSt hid1
  have hcond : (dictLookup (id, label).1
      (l₁.foldl (processEntry T total) initSt).cache).isSome = false := by
    show (dictLookup id (l₁.foldl (processEntry T total) initSt).cache).isSome
      = false
    rw [hA.1, hinit]
    rfl
  have hstep : processEntry T total
        (l₁.foldl (processEntry T total) initSt) (id, label)
      = { l₁.foldl (processEntry T total) initSt with
          errors := (l₁.foldl (processEntry T total) initSt).errors + 3
          trace := (l₁.foldl (processEntry T total) initSt).trace
            ++ (transientTrace id 0 3 ++ [Event.failLog id]) } := by
    rw [processEntry_eq, hcond, if_neg Bool.false_ne_true]
    exact attemptLoop_transient T total id htr 3 0 _
  have hC := run_other T total id l₂
    (processEntry T total (l₁.foldl (processEntry T total) initSt)
      (id, label)) hid2
  refine ⟨?_, ?_, ?_⟩
  · rw [hC.2.1, hstep]
    show List.countP (isCallFor id)
      ((l₁.foldl (processEntry T total) initSt).trace
        ++ (transientTrace id 0 3 ++ [Event.failLog id])) = 3
    rw [List.countP_append, List.countP_append, hA.2.1, hcnt0,
      countP_transientTrace_self]
    rfl
  · rw [hC.1, hstep]
    show dictLookup id (l₁.foldl (processEntry T total) initSt).cache = none
    rw [hA.1, hinit]
  · refine le_trans ?_ hC.2.2.1
    rw [hstep]
    show initSt.errors + 3 ≤ (l₁.foldl (processEntry T total) initSt).errors + 3
    have h3 := hA.2.2.1
    omega

/-- Claim C1: an entry absent from the Handle Cache whose transport calls
always fail with the generic transient error is attempted exactly 3 times,
is left absent from the cache, and the run still completes — its trace ends
with the final persistence and a summary whose errored count includes the
entry (three attempt errors). -/
theorem c1_transient_entry_three_attempts (T : Transport)
    (allFiles initCache : List (String × String)) (id label : String)
    (hnd : (allFiles.map (fun e => e.1)).Nodup)
    (hmem : (id, label) ∈ allFiles)
    (hinit : dictLookup id initCache = none)
    (htr : ∀ a, T.answerVoice id a = Outcome.transientError) :
    List.countP (isCallFor id) (cmd_upload T allFiles initCache).trace = 3 ∧
    dictLookup id (cmd_upload T allFiles initCache).cache = none ∧
    3 ≤ (cmd_upload T allFiles initCache).errors ∧
    ∃ t, (cmd_upload T allFiles initCache).trace
      = t ++ [Event.saveCache (cmd_upload T allFiles initCache).cache,
              Event.finalMsg allFiles.length
                (cmd_upload T allFiles initCache).uploaded
                (cmd_upload T allFiles initCache).skipped
                (cmd_upload T allFiles initCache).errors] := by
  obtain ⟨l₁, l₂, rfl⟩ := List.append_of_mem hmem
  rw [List.map_append, List.map_cons] at hnd
  rw [List.nodup_append] at hnd
  have hid2 : id ∉ l₂.map (fun e => e.1) := by
    have h2 := hnd.2.1
    rw [List.nodup_cons] at h2
    exact h2.1
  have hid1 : id ∉ l₁.map (fun e => e.1) :=
    fun h1 => hnd.2.2 h1 (List.mem_cons_self id _)
  have hmid := runFold_transient_mid T (l₁ ++ (id, label) :: l₂).length
    l₁ l₂ id label (initState initCache) hid1 hid2 hinit rfl htr
  refine ⟨?_, ?_, ?_, ?_⟩
  · rw [cmd_upload_trace, List.countP_append]
    unfold runFold
    rw [hmid.1]
    rfl
  · rw [cmd_upload_cache]
    unfold runFold
    exact hmid.2.1
  · rw [cmd_upload_errors]
    unfold runFold
    have h3 := hmid.2.2
    have h0 : (initState initCache).errors = 0 := rfl
    omega
  · rw [cmd_upload_trace, cmd_upload_cache, cmd_upload_uploaded,
      cmd_upload_skipped, cmd_upload_errors]
    exact ⟨(runFold T (l₁ ++ (id, label) :: l₂) initCache).trace, rfl⟩

/-- Witness for C1: a one-entry catalog with an always-transient acquisition
call and an empty initial cache — three calls, still uncached, three
errors. -/
theorem c1_transient_entry_three_attempts_witness :
    List.countP (isCallFor "a.ogg")
      (cmd_upload
        { answerVoice := fun _ _ => Outcome.transientError,
          deleteMsg := fun _ _ => AuxOutcome.ok,
          progressSend := fun _ => AuxOutcome.ok }
        [("a.ogg", "a")] []).trace = 3 ∧
    dictLookup "a.ogg"
      (cmd_upload
        { answerVoice := fun _ _ => Outcome.transientError,
          deleteMsg := fun _ _ => AuxOutcome.ok,
          progressSend := fun _ => AuxOutcome.ok }
        [("a.ogg", "a")] []).cache = none ∧
    3 ≤ (cmd_upload
        { answerVoice := fun _ _ => Outcome.transientError,
          deleteMsg := fun _ _ => AuxOutcome.ok,
          progressSend := fun _ => AuxOutcome.ok }
        [("a.ogg", "a")] []).errors := by
  have h := c1_transient_entry_three_attempts
    { answerVoice := fun _ _ => Outcome.transientError,
      deleteMsg := fun _ _ => AuxOutcome.ok,
      progressSend := fun _ => AuxOutcome.ok }
    [("a.ogg", "a")] [] "a.ogg" "a" (by decide) (by decide) (by decide)
    (fun _ => rfl)
  exact ⟨h.1, h.2.1, h.2.2.1⟩

/-- A cache-hit entry in the middle of a run of other entries: it is never
called, its cached handle survives unchanged, and it is counted as skipped. -/
theorem runFold_cachehit_mid (T : Transport)
    (total : Nat) (l₁ l₂ : List (String × String)) (id label fid : String)
    (initSt : RunState)
    (hid1 : id ∉ l₁.map (fun e => e.1)) (hid2 : id ∉ l₂.map (fun e => e.1))
    (hinit : dictLookup id initSt.cache = some fid)
    (hcnt0 : List.countP (isCallFor id) initSt.trace = 0) :
    List.countP (isCallFor id)
        ((l₁ ++ (id, label) :: l₂).foldl (processEntry T total) initSt).trace
      = 0 ∧
    dictLookup id
        ((l₁ ++ (id, label) :: l₂).foldl (processEntry T total) initSt).cache
      = some fid ∧
    initSt.skipped + 1
      ≤ ((l₁ ++ (id, label) :: l₂).foldl (processEntry T total) initSt).skipped := by
  rw [List.foldl_append, List.foldl_cons]
  have hA := run_other T total id l₁ initSt hid1
  have hcond : (dictLookup (id, label).1
      (l₁.foldl (processEntry T total) initSt).cache).isSome = true := by
    show (dictLookup id (l₁.foldl (processEntry T total) initSt).cache).isSome
      = true
    rw [hA.1, hinit]
    rfl
  have hstep : processEntry T total
        (l₁.foldl (processEntry T total) initSt) (id, label)
      = { l₁.foldl (processEntry T total) initSt with
          skipped := (l₁.foldl (processEntry T total) initSt).skipped + 1 } := by
    rw [processEntry_eq, hcond, if_pos rfl]
  have hC := run_other T total id l₂
    (processEntry T total (l₁.foldl (processEntry T total) initSt)
      (id, label)) hid2
  refine ⟨?_, ?_, ?_⟩
  · rw [hC.2.1, hstep]
    show List.countP (isCallFor id)
      (l₁.foldl (processEntry T total) initSt).trace = 0
    rw [hA.2.1, hcnt0]
  · rw [hC.1, hstep]
    show dictLookup id (l₁.foldl (processEntry T total) initSt).cache = some fid
    rw [hA.1, hinit]
  · refine le_trans ?_ hC.2.2.2
    rw [hstep]
    show initSt.skipped + 1
      ≤ (l₁.foldl (processEntry T total) initSt).skipped + 1
    have h4 := hA.2.2.2
    omega

/-- Claim C2: an entry already present in the Handle Cache before the run is
never re-acquired — zero transport calls for it, its cached handle is
unchanged at the end, and it is counted as skipped. -/
theorem c2_cache_hit_skipped (T : Transport)
    (allFiles initCache : List (String × String)) (id label fid : String)
    (hnd : (allFiles.map (fun e => e.1)).Nodup)
    (hmem : (id, label) ∈ allFiles)
    (hinit : dictLookup id initCache = some fid) :
    List.countP (isCallFor id) (cmd_upload T allFiles initCache).trace = 0 ∧
    dictLookup id (cmd_upload T allFiles initCache).cache = some fid ∧
    1 ≤ (cmd_upload T allFiles initCache).skipped := by
  obtain ⟨l₁, l₂, rfl⟩ := List.append_of_mem hmem
  rw [List.map_append, List.map_cons] at hnd
  rw [List.nodup_append] at hnd
  have hid2 : id ∉ l₂.map (fun e => e.1) := by
    have h2 := hnd.2.1
    rw [List.nodup_cons] at h2
    exact h2.1
  have hid1 : id ∉ l₁.map (fun e => e.1) :=
    fun h1 => hnd.2.2 h1 (List.mem_cons_self id _)
  have hmid := runFold_cachehit_mid T (l₁ ++ (id, label) :: l₂).length
    l₁ l₂ id label fid (initState initCache) hid1 hid2 hinit rfl
  refine ⟨?_, ?_, ?_⟩
  · rw [cmd_upload_trace, List.countP_append]
    unfold runFold
    rw [hmid.1]
    rfl
  · rw [cmd_upload_cache]
    unfold runFold
    exact hmid.2.1
  · rw [cmd_upload_skipped]
    unfold runFold
    have h3 := hmid.2.2
    have h0 : (initState initCache).skipped = 0 := rfl
    omega

/-- Witness for C2: a one-entry catalog whose identifier is already cached —
zero transport calls, the handle survives, one skip. -/
theorem c2_cache_hit_skipped_witness :
    List.countP (isCallFor "a.ogg")
      (cmd_upload
        { answerVoice := fun _ _ => Outcome.transientError,
          deleteMsg := fun _ _ => AuxOutcome.ok,
          progressSend := fun _ => AuxOutcome.ok }
        [("a.ogg", "a")] [("a.ogg", "X")]).trace = 0 ∧
    dictLookup "a.ogg"
      (cmd_upload
        { answerVoice := fun _ _ => Outcome.transientError,
          deleteMsg := fun _ _ => AuxOutcome.ok,
          progressSend := fun _ => AuxOutcome.ok }
        [("a.ogg", "a")] [("a.ogg", "X")]).cache = some "X" ∧
    1 ≤ (cmd_upload
        { answerVoice := fun _ _ => Outcome.transientError,
          deleteMsg := fun _ _ => AuxOutcome.ok,
          progressSend := fun _ => AuxOutcome.ok }
        [("a.ogg", "a")] [("a.ogg", "X")]).skipped :=
  c2_cache_hit_skipped
    { answerVoice := fun _ _ => Outcome.transientError,
      deleteMsg := fun _ _ => AuxOutcome.ok,
      progressSend := fun _ => AuxOutcome.ok }
    [("a.ogg", "a")] [("a.ogg", "X")] "a.ogg" "a" "X" (by decide) (by decide)
    (by decide)

/-! ## Claims C8, C9: checkpointing and delays -/

/-- Structural trace discipline that every run obeys: each cache persist is
immediately followed by its progress summary, and each rate-limit
notification is immediately followed by a sleep of the reported cooldown
plus two seconds. -/
def StructInv (st : RunState) : Prop :=
  chkOk st.trace = true ∧ cooldownOk st.trace = true

/-- Count invariant of runs whose auxiliary calls (artifact deletion and
progress sends) never fail: the number of cache persists and of progress
messages both equal `uploaded / 10`, and the number of one-second sleeps
equals `uploaded + errors`. -/
def CntInv (st : RunState) : Prop :=
  List.countP isSave st.trace = st.uploaded / 10 ∧
  List.countP isProgress st.trace = st.uploaded / 10 ∧
  List.countP isSleepOne st.trace = st.uploaded + st.errors

theorem StructInv_initState (initCache : List (String × String)) :
    StructInv (initState initCache) :=
  ⟨rfl, rfl⟩

theorem CntInv_initState (initCache : List (String × String)) :
    CntInv (initState initCache) := by
  refine ⟨?_, ?_, rfl⟩
  · show List.countP isSave [Event.startMsg] = 0 / 10
    decide
  · show List.countP isProgress [Event.startMsg] = 0 / 10
    decide

theorem attemptLoop_struct (T : Transport) (total : Nat) (id : String) :
    ∀ fuel attempt (st : RunState), StructInv st →
    StructInv (attemptLoop T total id fuel attempt st) := by
  intro fuel
  induction fuel with
  | zero =>
    intro attempt st h
    rw [attemptLoop_zero]
    exact ⟨chkOk_append _ _ h.1 rfl, cooldownOk_append _ _ h.2 rfl⟩
  | succ fuel ih =>
    intro attempt st h
    cases hout : T.answerVoice id attempt with
    | rateLimited n =>
      rw [attemptLoop_rateLimited_step T total id fuel attempt st n hout]
      refine ih (attempt + 1) _ ⟨chkOk_append _ _ h.1 rfl,
        cooldownOk_append _ _ h.2 (cooldownOk_rl_chunk id attempt n)⟩
    | transientError =>
      rw [attemptLoop_transient_step T total id fuel attempt st hout]
      refine ih (attempt + 1) _ ⟨chkOk_append _ _ h.1 rfl,
        cooldownOk_append _ _ h.2 rfl⟩
    | success f =>
      cases hdel : T.deleteMsg id attempt with
      | rateLimited n =>
        rw [attemptLoop_deleteRateLimited_step T total id fuel attempt st f n
          hout hdel]
        refine ih (attempt + 1) _ ⟨chkOk_append _ _ h.1 rfl,
          cooldownOk_append _ _ h.2 (cooldownOk_rl_delete_chunk id attempt n)⟩
      | failure =>
        rw [attemptLoop_deleteFailure_step T total id fuel attempt st f hout hdel]
        refine ih (attempt + 1) _ ⟨chkOk_append _ _ h.1 rfl,
          cooldownOk_append _ _ h.2 rfl⟩
      | ok =>
        by_cases hmod : (st.uploaded + 1) % 10 = 0
        · cases hprog : T.progressSend (st.uploaded + 1) with
          | failure =>
            rw [attemptLoop_chk_failure_step T total id fuel attempt st f hout
              hdel hmod hprog]
            refine ih (attempt + 1) _ ⟨chkOk_append _ _ h.1 rfl,
              cooldownOk_append _ _ h.2 rfl⟩
          | ok =>
            rw [attemptLoop_chk_ok_step T total id fuel attempt st f hout hdel
              hmod hprog]
            exact ⟨chkOk_append _ _ h.1 rfl, cooldownOk_append _ _ h.2 rfl⟩
          | rateLimited n =>
            rw [attemptLoop_chk_rateLimited_step T total id fuel attempt st f n
              hout hdel hmod hprog]
            exact ⟨chkOk_append _ _ h.1 rfl, cooldownOk_append _ _ h.2 rfl⟩
        · rw [attemptLoop_clean_nochk_step T total id fuel attempt st f hout
            hdel hmod]
          exact ⟨chkOk_append _ _ h.1 rfl, cooldownOk_append _ _ h.2 rfl⟩

theorem processEntry_struct (T : Transport) (total : Nat)
    (st : RunState) (e : String × String) (h : StructInv st) :
    StructInv (processEntry T total st e) := by
  rw [processEntry_eq]
  by_cases hc : (dictLookup e.1 st.cache).isSome = true
  · rw [if_pos hc]
    exact ⟨h.1, h.2⟩
  · rw [if_neg hc]
    exact attemptLoop_struct T total e.1 3 0 st h

theorem run_struct (T : Transport) (total : Nat) :
    ∀ (l : List (String × String)) (st : RunState), StructInv st →
    StructInv (l.foldl (processEntry T total) st) := by
  intro l
  induction l with
  | nil => exact fun st h => h
  | cons e rest ih =>
    intro st h
    rw [List.foldl_cons]
    exact ih _ (processEntry_struct T total st e h)

theorem attemptLoop_cnt (T : Transport) (total : Nat) (id : String)
    (hdel : ∀ i a, T.deleteMsg i a = AuxOutcome.ok)
    (hprog : ∀ u, T.progressSend u = AuxOutcome.ok) :
    ∀ fuel attempt (st : RunState), CntInv st →
    CntInv (attemptLoop T total id fuel attempt st) := by
  intro fuel
  induction fuel with
  | zero =>
    intro attempt st h
    rw [attemptLoop_zero]
    refine ⟨?_, ?_, ?_⟩
    · simp [List.countP_append, List.countP_cons, h.1]
    · simp [List.countP_append, List.countP_cons, h.2.1]
    · simp [List.countP_append, List.countP_cons, h.2.2]
  | succ fuel ih =>
    intro attempt st h
    cases hout : T.answerVoice id attempt with
    | rateLimited n =>
      rw [attemptLoop_rateLimited_step T total id fuel attempt st n hout]
      refine ih (attempt + 1) _ ⟨?_, ?_, ?_⟩
      · simp [List.countP_append, List.countP_cons, h.1]
      · simp [List.countP_append, List.countP_cons, h.2.1]
      · simp [List.countP_append, List.countP_cons, h.2.2]
    | transientError =>
      rw [attemptLoop_transient_step T total id fuel attempt st hout]
      refine ih (attempt + 1) _ ⟨?_, ?_, ?_⟩
      · simp [List.countP_append, List.countP_cons, h.1]
      · simp [List.countP_append, List.countP_cons, h.2.1]
      · simp [List.countP_append, List.countP_cons, h.2.2]
        omega
    | success f =>
      by_cases hmod : (st.uploaded + 1) % 10 = 0
      · have hdiv : (st.uploaded + 1) / 10 = st.uploaded / 10 + 1 := by
          rw [Nat.succ_div, if_pos (Nat.dvd_iff_mod_eq_zero.mpr hmod)]
        rw [attemptLoop_chk_ok_step T total id fuel attempt st f hout
          (hdel id attempt) hmod (hprog (st.uploaded + 1))]
        refine ⟨?_, ?_, ?_⟩
        · simp [List.countP_append, List.countP_cons, h.1, hdiv]
        · simp [List.countP_append, List.countP_cons, h.2.1, hdiv]
        · simp [List.countP_append, List.countP_cons, h.2.2]
          omega
      · have hdiv : (st.uploaded + 1) / 10 = st.uploaded / 10 := by
          rw [Nat.succ_div, if_neg (fun hd => hmod (Nat.dvd_iff_mod_eq_zero.mp hd))]
          omega
        rw [attemptLoop_clean_nochk_step T total id fuel attempt st f hout
          (hdel id attempt) hmod]
        refine ⟨?_, ?_, ?_⟩
        · simp [List.countP_append, List.countP_cons, h.1, hdiv]
        · simp [List.countP_append, List.countP_cons, h.2.1, hdiv]
        · simp [List.countP_append, List.countP_cons, h.2.2]
          omega

theorem processEntry_cnt (T : Transport) (total : Nat)
    (hdel : ∀ i a, T.deleteMsg i a = AuxOutcome.ok)
    (hprog : ∀ u, T.progressSend u = AuxOutcome.ok)
    (st : RunState) (e : String × String) (h : CntInv st) :
    CntInv (processEntry T total st e) := by
  rw [processEntry_eq]
  by_cases hc : (dictLookup e.1 st.cache).isSome = true
  · rw [if_pos hc]
    exact ⟨h.1, h.2.1, h.2.2⟩
  · rw [if_neg hc]
    exact attemptLoop_cnt T total e.1 hdel hprog 3 0 st h

theorem run_cnt (T : Transport) (total : Nat)
    (hdel : ∀ i a, T.deleteMsg i a = AuxOutcome.ok)
    (hprog : ∀ u, T.progressSend u = AuxOutcome.ok) :
    ∀ (l : List (String × String)) (st : RunState), CntInv st →
    CntInv (l.foldl (processEntry T total) st) := by
  intro l
  induction l with
  | nil => exact fun st h => h
  | cons e rest ih =>
    intro st h
    rw [List.foldl_cons]
    exact ih _ (processEntry_cnt T total hdel hprog st e h)

/-- Claim C8 counterexample: nine clean uploads followed by an entry whose
artifact deletion fails on the attempt that makes `uploaded` reach 10 —
the retry re-uploads it, `uploaded` ends at 11, yet the only cache persist
in the whole trace is the final one, so the cache is not persisted after
every 10th successful acquisition. -/
theorem c8_counterexample_missed_checkpoint :
    10 ≤ (cmd_upload
      { answerVoice := fun _ _ => Outcome.success "F",
        deleteMsg := fun i a =>
          if i = "j" ∧ a = 0 then AuxOutcome.failure else AuxOutcome.ok,
        progressSend := fun _ => AuxOutcome.ok }
      [("a", "a"), ("b", "b"), ("c", "c"), ("d", "d"), ("e", "e"),
       ("f", "f"), ("g", "g"), ("h", "h"), ("i", "i"), ("j", "j")]
      []).uploaded ∧
    List.countP isSave (cmd_upload
      { answerVoice := fun _ _ => Outcome.success "F",
        deleteMsg := fun i a =>
          if i = "j" ∧ a = 0 then AuxOutcome.failure else AuxOutcome.ok,
        progressSend := fun _ => AuxOutcome.ok }
      [("a", "a"), ("b", "b"), ("c", "c"), ("d", "d"), ("e", "e"),
       ("f", "f"), ("g", "g"), ("h", "h"), ("i", "i"), ("j", "j")]
      []).trace = 1 := by
  decide

/-- Claim C8 as amended: every run persists the full Handle Cache once when
it completes (also with zero entries processed), each checkpoint persist
that does happen is immediately followed by a progress summary of the
counters, and when the artifact deletions and progress sends never fail the
cache is persisted exactly once per 10th successful acquisition. -/
theorem c8_amended_checkpoint_persistence (T : Transport)
    (allFiles initCache : List (String × String)) :
    ∃ t, (cmd_upload T allFiles initCache).trace
        = t ++ [Event.saveCache (cmd_upload T allFiles initCache).cache,
                Event.finalMsg allFiles.length
                  (cmd_upload T allFiles initCache).uploaded
                  (cmd_upload T allFiles initCache).skipped
                  (cmd_upload T allFiles initCache).errors] ∧
      chkOk t = true ∧
      ((∀ i a, T.deleteMsg i a = AuxOutcome.ok) →
       (∀ u, T.progressSend u = AuxOutcome.ok) →
        List.countP isSave t
          = (cmd_upload T allFiles initCache).uploaded / 10 ∧
        List.countP isProgress t
          = (cmd_upload T allFiles initCache).uploaded / 10) := by
  have hstruct : StructInv (runFold T allFiles initCache) := by
    unfold runFold
    exact run_struct T allFiles.length allFiles (initState initCache)
      (StructInv_initState initCache)
  refine ⟨(runFold T allFiles initCache).trace, ?_, hstruct.1, ?_⟩
  · rw [cmd_upload_trace, cmd_upload_cache, cmd_upload_uploaded,
      cmd_upload_skipped, cmd_upload_errors]
  · intro hdel hprog
    have hcnt : CntInv (runFold T allFiles initCache) := by
      unfold runFold
      exact run_cnt T allFiles.length hdel hprog allFiles (initState initCache)
        (CntInv_initState initCache)
    rw [cmd_upload_uploaded]
    exact ⟨hcnt.1, hcnt.2.1⟩

/-- Witness for the amended C8: a single clean upload with never-failing
auxiliary calls — the trace ends with the final persist and summary, the
checkpoint discipline holds, and the checkpoint counts match uploaded/10. -/
theorem c8_amended_checkpoint_persistence_witness :
    ∃ t, (cmd_upload
        { answerVoice := fun _ _ => Outcome.success "F",
          deleteMsg := fun _ _ => AuxOutcome.ok,
          progressSend := fun _ => AuxOutcome.ok }
        [("a.ogg", "a")] []).trace
        = t ++ [Event.saveCache (cmd_upload
                  { answerVoice := fun _ _ => Outcome.success "F",
                    deleteMsg := fun _ _ => AuxOutcome.ok,
                    progressSend := fun _ => AuxOutcome.ok }
                  [("a.ogg", "a")] []).cache,
                Event.finalMsg 1
                  (cmd_upload
                    { answerVoice := fun _ _ => Outcome.success "F",
                      deleteMsg := fun _ _ => AuxOutcome.ok,
                      progressSend := fun _ => AuxOutcome.ok }
                    [("a.ogg", "a")] []).uploaded
                  (cmd_upload
                    { answerVoice := fun _ _ => Outcome.success "F",
                      deleteMsg := fun _ _ => AuxOutcome.ok,
                      progressSend := fun _ => AuxOutcome.ok }
                    [("a.ogg", "a")] []).skipped
                  (cmd_upload
                    { answerVoice := fun _ _ => Outcome.success "F",
                      deleteMsg := fun _ _ => AuxOutcome.ok,
                      progressSend := fun _ => AuxOutcome.ok }
                    [("a.ogg", "a")] []).errors] ∧
      chkOk t = true ∧
      List.countP isSave t
        = (cmd_upload
            { answerVoice := fun _ _ => Outcome.success "F",
              deleteMsg := fun _ _ => AuxOutcome.ok,
              progressSend := fun _ => AuxOutcome.ok }
            [("a.ogg", "a")] []).uploaded / 10 := by
  obtain ⟨t, h1, h2, h3⟩ := c8_amended_checkpoint_persistence
    { answerVoice := fun _ _ => Outcome.success "F",
      deleteMsg := fun _ _ => AuxOutcome.ok,
      progressSend := fun _ => AuxOutcome.ok }
    [("a.ogg", "a")] []
  exact ⟨t, h1, h2, (h3 (fun _ _ => rfl) (fun _ => rfl)).1⟩

/-- A run all of whose entries are cache hits only bumps the skip counter:
no transport call, no sleep, no event at all is added by the loop. -/
theorem run_all_hits (T : Transport) (total : Nat) :
    ∀ (l : List (String × String)) (st : RunState),
    (∀ e ∈ l, (dictLookup e.1 st.cache).isSome = true) →
    l.foldl (processEntry T total) st
      = { st with skipped := st.skipped + l.length } := by
  intro l
  induction l with
  | nil =>
    intro st _
    rfl
  | cons e rest ih =>
    intro st hall
    rw [List.foldl_cons, processEntry_eq, if_pos (hall e (List.mem_cons_self e rest))]
    rw [ih { st with skipped := st.skipped + 1 }
      (fun e2 he2 => hall e2 (List.mem_cons_of_mem e he2))]
    cases st with
    | mk c u sk er tr =>
      simp only [RunState.mk.injEq, true_and, and_true, List.length_cons]
      omega

/-- Claim C9 counterexample: a run over two consecutive catalog entries that
are both cache hits contains no sleep event at all, so no fixed inter-item
delay is enforced between consecutive entries of every outcome. -/
theorem c9_counterexample_no_delay_between_skips :
    ([("a.ogg", "A"), ("b.ogg", "B")] : List (String × String)).length = 2 ∧
    List.countP isSleep
      (cmd_upload
        { answerVoice := fun _ _ => Outcome.transientError,
          deleteMsg := fun _ _ => AuxOutcome.ok,
          progressSend := fun _ => AuxOutcome.ok }
        [("a.ogg", "A"), ("b.ogg", "B")]
        [("a.ogg", "X"), ("b.ogg", "Y")]).trace = 0 := by
  decide

/-- Claim C9 as amended: every rate-limited attempt is followed immediately
by a sleep of the transport-reported cooldown plus two seconds (so that
wait is transport-derived, not the fixed constant); a run all of whose
entries are cache hits sleeps not at all (skipped entries incur no delay);
and when the artifact deletions and progress sends never fail, the fixed
one-second sleeps number exactly uploaded + errors — one per successful
acquisition and one per generic-error attempt. -/
theorem c9_amended_delay_discipline (T : Transport)
    (allFiles initCache : List (String × String)) :
    cooldownOk (cmd_upload T allFiles initCache).trace = true ∧
    ((∀ e ∈ allFiles, (dictLookup e.1 initCache).isSome = true) →
      List.countP isSleep (cmd_upload T allFiles initCache).trace = 0) ∧
    ((∀ i a, T.deleteMsg i a = AuxOutcome.ok) →
     (∀ u, T.progressSend u = AuxOutcome.ok) →
      List.countP isSleepOne (cmd_upload T allFiles initCache).trace
        = (cmd_upload T allFiles initCache).uploaded
          + (cmd_upload T allFiles initCache).errors) := by
  refine ⟨?_, ?_, ?_⟩
  · have hstruct : StructInv (runFold T allFiles initCache) := by
      unfold runFold
      exact run_struct T allFiles.length allFiles (initState initCache)
        (StructInv_initState initCache)
    rw [cmd_upload_trace]
    exact cooldownOk_append _ _ hstruct.2 rfl
  · intro hall
    rw [cmd_upload_trace, List.countP_append]
    unfold runFold
    rw [run_all_hits T allFiles.length allFiles (initState initCache) hall]
    rfl
  · intro hdel hprog
    have hcnt : CntInv (runFold T allFiles initCache) := by
      unfold runFold
      exact run_cnt T allFiles.length hdel hprog allFiles (initState initCache)
        (CntInv_initState initCache)
    rw [cmd_upload_trace, cmd_upload_uploaded, cmd_upload_errors,
      List.countP_append, hcnt.2.2]
    rfl

/-- Witness for the amended C9: a single cache-hit entry with never-failing
auxiliary calls — the cooldown discipline holds, the run sleeps not at all,
and the one-second-sleep count matches uploaded plus errors. -/
theorem c9_amended_delay_discipline_witness :
    cooldownOk (cmd_upload
      { answerVoice := fun _ _ => Outcome.success "F",
        deleteMsg := fun _ _ => AuxOutcome.ok,
        progressSend := fun _ => AuxOutcome.ok }
      [("a.ogg", "a")] [("a.ogg", "X")]).trace = true ∧
    List.countP isSleep (cmd_upload
      { answerVoice := fun _ _ => Outcome.success "F",
        deleteMsg := fun _ _ => AuxOutcome.ok,
        progressSend := fun _ => AuxOutcome.ok }
      [("a.ogg", "a")] [("a.ogg", "X")]).trace = 0 ∧
    List.countP isSleepOne (cmd_upload
      { answerVoice := fun _ _ => Outcome.success "F",
        deleteMsg := fun _ _ => AuxOutcome.ok,
        progressSend := fun _ => AuxOutcome.ok }
      [("a.ogg", "a")] [("a.ogg", "X")]).trace
      = (cmd_upload
          { answerVoice := fun _ _ => Outcome.success "F",
            deleteMsg := fun _ _ => AuxOutcome.ok,
            progressSend := fun _ => AuxOutcome.ok }
          [("a.ogg", "a")] [("a.ogg", "X")]).uploaded
        + (cmd_upload
            { answerVoice := fun _ _ => Outcome.success "F",
              deleteMsg := fun _ _ => AuxOutcome.ok,
              progressSend := fun _ => AuxOutcome.ok }
            [("a.ogg", "a")] [("a.ogg", "X")]).errors := by
  have h := c9_amended_delay_discipline
    { answerVoice := fun _ _ => Outcome.success "F",
      deleteMsg := fun _ _ => AuxOutcome.ok,
      progressSend := fun _ => AuxOutcome.ok }
    [("a.ogg", "a")] [("a.ogg", "X")]
  exact ⟨h.1, h.2.1 (by decide), h.2.2 (fun _ _ => rfl) (fun _ => rfl)⟩


/-! ## Claim C3: Handle Cache round-trip -/

/-- Claim C3: for every mapping M from string keys to string handles,
loading the cache immediately after saving M yields exactly the
normalization of M, where normalization replaces every backslash in each
key with a forward slash; load and save both apply this normalization. -/
theorem c3_cache_round_trip (M : List (String × String)) :
    load_file_id_cache (some (save_file_id_cache M)) = normalizeCache M ∧
    save_file_id_cache M = normalizeCache M ∧
    load_file_id_cache (some M) = normalizeCache M := by
  refine ⟨?_, rfl, rfl⟩
  show normalizeCache (normalizeCache M) = normalizeCache M
  exact normalizeCache_idem M

/-! ## Claim C5: the catalog of the directory walk -/

/-- Claim C5: for every directory tree under the audio root, the catalog
built by the walk has no duplicate keys and holds a key exactly for the
walked files with a recognized audio extension (.wav or .ogg), the key
being the file's root-relative path with forward slashes as separators. -/
theorem c5_catalog_exactly_audio_files (walk : List (List String × String)) :
    (dictKeys (load_audio_files walk)).Nodup ∧
    ∀ k, k ∈ dictKeys (load_audio_files walk) ↔
      ∃ e ∈ walk, isAudioFile e.2 = true ∧ relPathOf e.1 e.2 = k := by
  constructor
  · exact load_audio_files_keys_nodup_aux walk [] List.nodup_nil
  · intro k
    have h := load_audio_files_keys_aux walk [] k
    rw [show (dictKeys [] : List String) = [] from rfl] at h
    simp only [List.not_mem_nil, false_or] at h
    exact h

/-- Witness for C5 at the walk of scenario 1 (`protoss/zealot/attack.ogg`)
plus a non-audio file: the key set is exactly the audio file's slash path. -/
theorem c5_catalog_exactly_audio_files_witness :
    "protoss/zealot/attack.ogg"
        ∈ dictKeys (load_audio_files
            [(["protoss", "zealot"], "attack.ogg"), ([], "readme.txt")]) ∧
    "readme.txt"
        ∉ dictKeys (load_audio_files
            [(["protoss", "zealot"], "attack.ogg"), ([], "readme.txt")]) := by
  have h := c5_catalog_exactly_audio_files
    [(["protoss", "zealot"], "attack.ogg"), ([], "readme.txt")]
  refine ⟨(h.2 "protoss/zealot/attack.ogg").mpr
      ⟨(["protoss", "zealot"], "attack.ogg"), by decide, by decide, by decide⟩,
    by decide⟩

/-! ## Claim C4: label derivation -/

/-- Claim C4: label derivation is a deterministic pure function of the
identifier — the display name computed during the walk equals a function of
the identifier alone; an identifier with exactly one path segment gets the
extension-less filename verbatim (no bracket prefix is prepended), and one
with two or more segments gets the title-cased joined directory segments in
square brackets, a space, and the extension-less filename. -/
theorem c4_label_derivation (dirs : List String) (file : String)
    (hd : ∀ s ∈ dirs, cleanSeg s) (hf : cleanSeg file) :
    displayNameCode (relPathOf dirs file) file
        = labelOfIdentifier (relPathOf dirs file) ∧
    (dirs = [] → labelOfIdentifier (relPathOf dirs file) = stem file) ∧
    (dirs ≠ [] → labelOfIdentifier (relPathOf dirs file)
        = "[" ++ title (joinSlash dirs) ++ "] " ++ stem file) := by
  cases dirs with
  | nil =>
    have hp1 : pathParts (relPathOf [] file) = [file] :=
      pathParts_relPathOf [] file hd hf
    have hlen : ¬1 < (pathParts (relPathOf [] file)).length := by
      rw [hp1]
      simp
    refine ⟨?_, fun _ => ?_, fun hne => absurd rfl hne⟩
    · unfold displayNameCode labelOfIdentifier
      rw [if_neg hlen, if_neg hlen]
      rfl
    · unfold labelOfIdentifier
      rw [if_neg hlen]
      rfl
  | cons d rest =>
    have hp := pathParts_relPathOf (d :: rest) file hd hf
    have hlen : 1 < (pathParts (relPathOf (d :: rest) file)).length := by
      rw [hp]
      simp
    refine ⟨?_, fun heq => absurd heq (List.cons_ne_nil d rest), fun _ => ?_⟩
    · unfold displayNameCode labelOfIdentifier
      rw [if_pos hlen, if_pos hlen]
    · unfold labelOfIdentifier
      rw [if_pos hlen, hp]
      rw [show ((d :: rest) ++ [file]).dropLast = d :: rest from
          List.dropLast_concat]
      rw [show ((d :: rest) ++ [file]).getLastD "" = file from by
          rw [List.getLastD_concat]]

/-- Witness for C4 at scenario 1 of the spec: the walk of
`protoss/zealot/attack.ogg` derives the label `[Protoss/Zealot] attack`,
and a single-segment file `theme.wav` derives `theme`. -/
theorem c4_label_derivation_witness :
    displayNameCode (relPathOf ["protoss", "zealot"] "attack.ogg") "attack.ogg"
        = labelOfIdentifier (relPathOf ["protoss", "zealot"] "attack.ogg") ∧
    labelOfIdentifier "protoss/zealot/attack.ogg" = "[Protoss/Zealot] attack" ∧
    labelOfIdentifier "theme.wav" = "theme" := by
  have h := c4_label_derivation ["protoss", "zealot"] "attack.ogg"
    (by decide) (by decide)
  exact ⟨h.1, by decide, by decide⟩

/-! ## Claims C6, C7, C10: the search pipeline -/

/-- Anatomy of a returned search result: it scores strictly above the floor,
its display name lies in the `limit`-truncated ranked window, and its
identifier is the first catalog entry carrying that display name. -/
theorem search_mem_elim (scorer : String → String → ℚ)
    (files : List (String × String)) (query : String) (limit : Nat)
    (e : String × String × ℚ) (he : e ∈ search scorer files query limit) :
    (30 : ℚ) < e.2.2 ∧
    e.2.1 ∈ (extract scorer query (files.map (fun p => p.2)) limit).map
      (fun r => r.1) ∧
    files.find? (fun p => p.2 == e.2.1) = some (e.1, e.2.1) := by
  unfold search at he
  by_cases hq : query = ""
  · rw [if_pos hq] at he
    cases he
  · rw [if_neg hq] at he
    rw [List.mem_filterMap] at he
    rcases he with ⟨r, hr, hf⟩
    by_cases hs : (30 : ℚ) < r.2
    · rw [if_pos hs] at hf
      rcases hfind : files.find? (fun p => p.2 == r.1) with - | p
      · rw [hfind] at hf
        cases hf
      · rw [hfind] at hf
        injection hf with hf
        have hp2 : p.2 = r.1 := by
          have h := List.find?_some hfind
          simpa using h
        subst hf
        refine ⟨hs, List.mem_map.mpr ⟨r, hr, rfl⟩, ?_⟩
        show files.find? (fun p => p.2 == r.1) = some (p.1, r.1)
        rw [hfind]
        rw [show p = (p.1, r.1) from by rw [← hp2]]
    · rw [if_neg hs] at hf
      cases hf

/-- Claim C6: fuzzy search never returns an entry with score at most 30,
returns at most `limit` entries, and applies the score floor only after the
ranking step has truncated the candidate list to `limit` — every returned
display name lies inside the truncated window, so a candidate ranked
outside it is excluded whatever its score. -/
theorem c6_search_floor_after_truncation (scorer : String → String → ℚ)
    (files : List (String × String)) (query : String) (limit : Nat) :
    (∀ e ∈ search scorer files query limit, (30 : ℚ) < e.2.2) ∧
    (search scorer files query limit).length ≤ limit ∧
    (∀ e ∈ search scorer files query limit,
      e.2.1 ∈ (extract scorer query (files.map (fun p => p.2)) limit).map
        (fun r => r.1)) := by
  refine ⟨fun e he => (search_mem_elim scorer files query limit e he).1, ?_,
    fun e he => (search_mem_elim scorer files query limit e he).2.1⟩
  unfold search
  by_cases hq : query = ""
  · rw [if_pos hq]
    exact Nat.zero_le limit
  · rw [if_neg hq]
    refine le_trans (List.length_filterMap_le _ _) ?_
    unfold extract
    exact List.length_take_le _ _

/-- Witness for C6 at spec scenario 3: query `zeal` against the two labels,
with a scorer rating the Protoss label 90 and the Terran one 10; the single
returned entry scores above 30 and at most 20 results come back. -/
theorem c6_search_floor_after_truncation_witness :
    ("protoss/zealot/attack.ogg", "[Protoss/Zealot] attack", (90 : ℚ))
        ∈ search (fun _ c => if c = "[Protoss/Zealot] attack" then (90 : ℚ) else 10)
          [("protoss/zealot/attack.ogg", "[Protoss/Zealot] attack"),
           ("terran/marine/fire.ogg", "[Terran/Marine] fire")] "zeal" 20 ∧
    (30 : ℚ) <
      (("protoss/zealot/attack.ogg", "[Protoss/Zealot] attack", (90 : ℚ)) :
        String × String × ℚ).2.2 ∧
    (search (fun _ c => if c = "[Protoss/Zealot] attack" then (90 : ℚ) else 10)
        [("protoss/zealot/attack.ogg", "[Protoss/Zealot] attack"),
         ("terran/marine/fire.ogg", "[Terran/Marine] fire")] "zeal" 20).length
      ≤ 20 := by
  have hmem :
      ("protoss/zealot/attack.ogg", "[Protoss/Zealot] attack", (90 : ℚ))
        ∈ search (fun _ c => if c = "[Protoss/Zealot] attack" then (90 : ℚ) else 10)
          [("protoss/zealot/attack.ogg", "[Protoss/Zealot] attack"),
           ("terran/marine/fire.ogg", "[Terran/Marine] fire")] "zeal" 20 := by
    decide
  have h := c6_search_floor_after_truncation
    (fun _ c => if c = "[Protoss/Zealot] attack" then (90 : ℚ) else 10)
    [("protoss/zealot/attack.ogg", "[Protoss/Zealot] attack"),
     ("terran/marine/fire.ogg", "[Terran/Marine] fire")] "zeal" 20
  exact ⟨hmem, h.1 _ hmem, h.2.1⟩

theorem filterMap_map_sublist {α β γ : Type} (g : α → Option β)
    (proj2 : β → γ) (proj1 : α → γ)
    (h : ∀ a b, g a = some b → proj2 b = proj1 a) :
    ∀ l : List α, ((l.filterMap g).map proj2).Sublist (l.map proj1) := by
  intro l
  induction l with
  | nil => exact List.Sublist.refl []
  | cons a t ih =>
    rcases hga : g a with - | b
    · rw [List.filterMap_cons_none hga, List.map_cons]
      exact List.Sublist.cons _ ih
    · rw [List.filterMap_cons_some hga, List.map_cons, List.map_cons,
        h a b hga]
      exact List.Sublist.cons₂ _ ih

/-- The inline handler's answered result list is either empty or the
50-truncation of the cache-filtered search results. -/
theorem inline_query_handler_cases (scorer : String → String → ℚ)
    (files cache : List (String × String)) (raw : String) :
    (inline_query_handler scorer files cache raw).1 = [] ∨
    (inline_query_handler scorer files cache raw).1 =
      ((search scorer files (pyStrip raw) 20).filterMap (fun r =>
        match dictLookup r.1 cache with
        | some fid => some (r.1, fid, r.2.1)
        | none => none)).take 50 := by
  unfold inline_query_handler
  by_cases h1 : search scorer files (pyStrip raw) 20 = []
  · rw [if_pos h1]
    exact Or.inl rfl
  · rw [if_neg h1]
    by_cases h2 : (search scorer files (pyStrip raw) 20).filterMap (fun r =>
        match dictLookup r.1 cache with
        | some fid => some (r.1, fid, r.2.1)
        | none => none) = []
    · rw [if_pos h2]
      exact Or.inl rfl
    · rw [if_neg h2]
      exact Or.inr rfl

/-- Claim C7: every result surfaced by the inline query handler carries a
handle present in the Handle Cache (its cached file_id), the surfaced
identifiers preserve the search ranking's relative order, and at most 50
results are returned. -/
theorem c7_inline_responder (scorer : String → String → ℚ)
    (files cache : List (String × String)) (raw : String) :
    (∀ e ∈ (inline_query_handler scorer files cache raw).1,
      dictLookup e.1 cache = some e.2.1) ∧
    ((inline_query_handler scorer files cache raw).1.map (fun e => e.1)).Sublist
      ((search scorer files (pyStrip raw) 20).map (fun r => r.1)) ∧
    (inline_query_handler scorer files cache raw).1.length ≤ 50 := by
  rcases inline_query_handler_cases scorer files cache raw with hout | hout
  · rw [hout]
    refine ⟨fun e he => absurd he (List.not_mem_nil e), List.nil_sublist _,
      Nat.zero_le 50⟩
  · rw [hout]
    refine ⟨?_, ?_, ?_⟩
    · intro e he
      have he2 := List.mem_of_mem_take he
      rw [List.mem_filterMap] at he2
      rcases he2 with ⟨r, _, hg⟩
      rcases hl : dictLookup r.1 cache with - | fid
      · rw [hl] at hg
        cases hg
      · rw [hl] at hg
        injection hg with hg
        subst hg
        exact hl
    · have hsub2 := filterMap_map_sublist
        (fun r : String × String × ℚ =>
          match dictLookup r.1 cache with
          | some fid => some (r.1, fid, r.2.1)
          | none => none)
        (fun e : String × String × String => e.1)
        (fun r : String × String × ℚ => r.1)
        (fun r b hg => by
          dsimp only at hg
          rcases hl : dictLookup r.1 cache with - | fid
          · rw [hl] at hg
            cases hg
          · rw [hl] at hg
            injection hg with hg
            subst hg
            rfl)
        (search scorer files (pyStrip raw) 20)
      refine List.Sublist.trans ?_ hsub2
      rw [List.map_take]
      exact List.take_sublist _ _
    · exact List.length_take_le _ _

/-- Witness for C7: a concrete query whose two ranked labels map to one
cached and one uncached identifier; the surfaced result's handle is its
cached file_id. -/
theorem c7_inline_responder_witness :
    ("a/x.ogg", "FIDX", "LA")
        ∈ (inline_query_handler (fun _ _ => (90 : ℚ))
            [("a/x.ogg", "LA"), ("b/y.ogg", "LB")] [("a/x.ogg", "FIDX")] "q").1 ∧
    dictLookup "a/x.ogg" [("a/x.ogg", "FIDX")] = some "FIDX" := by
  have hmem : ("a/x.ogg", "FIDX", "LA")
      ∈ (inline_query_handler (fun _ _ => (90 : ℚ))
          [("a/x.ogg", "LA"), ("b/y.ogg", "LB")] [("a/x.ogg", "FIDX")] "q").1 := by
    decide
  exact ⟨hmem,
    (c7_inline_responder (fun _ _ => (90 : ℚ))
      [("a/x.ogg", "LA"), ("b/y.ogg", "LB")] [("a/x.ogg", "FIDX")] "q").1
      _ hmem⟩

/-- Claim C10: when two distinct identifiers derive the same display label,
every search result carrying that label resolves to the first identifier
with that label in catalog order, so an identifier preceded by another
entry with the same label is never returned. -/
theorem c10_duplicate_label_shadowing (scorer : String → String → ℚ)
    (files : List (String × String)) (query : String) (limit : Nat) :
    (∀ e ∈ search scorer files query limit,
      files.find? (fun p => p.2 == e.2.1) = some (e.1, e.2.1)) ∧
    (∀ p q : String × String,
      files.find? (fun x => x.2 == p.2) = some q → q.1 ≠ p.1 →
      ∀ s : ℚ, (p.1, p.2, s) ∉ search scorer files query limit) := by
  constructor
  · exact fun e he => (search_mem_elim scorer files query limit e he).2.2
  · intro p q hfind hne s hmem
    have h := (search_mem_elim scorer files query limit (p.1, p.2, s) hmem).2.2
    rw [hfind] at h
    injection h with h
    exact hne (congrArg Prod.fst h)

/-- Witness for C10: two catalog entries share the label `L`; the second,
`b/x.ogg`, is never returned even at top score, because the first entry
with label `L` is `a/x.ogg`. -/
theorem c10_duplicate_label_shadowing_witness :
    [("a/x.ogg", "L"), ("b/x.ogg", "L")].find?
        (fun x => x.2 == ("b/x.ogg", "L").2) = some ("a/x.ogg", "L") ∧
    ("b/x.ogg", "L", (90 : ℚ))
      ∉ search (fun _ c => if c = "L" then (90 : ℚ) else 10)
          [("a/x.ogg", "L"), ("b/x.ogg", "L")] "L" 5 := by
  refine ⟨by decide, ?_⟩
  exact (c10_duplicate_label_shadowing
      (fun _ c => if c = "L" then (90 : ℚ) else 10)
      [("a/x.ogg", "L"), ("b/x.ogg", "L")] "L" 5).2
    ("b/x.ogg", "L") ("a/x.ogg", "L") (by decide) (by decide) 90

end StarcraftVoiceBot
